import Mathlib

/-!
Verification of the Xova plugin evolution orchestrator
(`xova/registry.py`, `xova/evolve.py`, `xova/sandbox.py`,
`tools/sign_manifest.py`) against its natural-language specification.

The Python code manipulates JSON-shaped data (dicts, lists, strings,
numbers).  We embed JSON values as the inductive type `Json` below, with
Python dicts as association lists that keep insertion order (Python 3.7+
dict semantics).  JSON numbers are embedded as rationals: Python ints map
exactly, and every Python float is a dyadic rational, so orderings and
equalities used by the code are preserved.  The decimal rendering of
non-integral numbers (Python float repr) is not modelled faithfully;
no theorem in this file depends on rendering a non-integral number.

Places where the Python code would raise a TypeError on exotically-typed
JSON data (for example a manifest whose "version" field is a number) are
modelled by `Option`-valued helpers; the top-level functions use the
helpers with a default, and every theorem that touches such a helper
carries a well-formedness hypothesis putting the input inside the
faithfully-modelled domain.
-/

namespace Xova

/-- JSON values as produced by Python `json.load`: `null`, booleans,
numbers (modelled as rationals, see the file comment), strings, arrays,
and objects as insertion-ordered association lists with string keys. -/
inductive Json where
  | null : Json
  | bool (b : Bool) : Json
  | num (q : Rat) : Json
  | str (s : String) : Json
  | arr (xs : List Json) : Json
  | obj (kvs : List (String × Json)) : Json

/-- A manifest as the code sees it: a parsed JSON object, i.e. a Python
dict from field names to JSON values. -/
abbrev Manifest := List (String × Json)

/-- Python `d.get(k)` on an insertion-ordered dict: the value at the first
(unique, for genuine dicts) occurrence of the key. -/
def alGet {α : Type} : List (String × α) → String → Option α
  | [], _ => none
  | p :: rest, k => if p.1 == k then some p.2 else alGet rest k

/-- Python `d.get(k, dflt)`. -/
def alGetD {α : Type} (kvs : List (String × α)) (k : String) (dflt : α) : α :=
  (alGet kvs k).getD dflt

/-- Python `d[k] = v`: replace the value at the first occurrence of `k`
keeping its position, else append the binding at the end (dict insertion
order semantics). -/
def alSet {α : Type} : List (String × α) → String → α → List (String × α)
  | [], k, v => [(k, v)]
  | p :: rest, k, v => if p.1 == k then (k, v) :: rest else p :: alSet rest k v

/-- Python `d.pop(k, None)`: drop the first occurrence of the key. -/
def alPop {α : Type} : List (String × α) → String → List (String × α)
  | [], _ => []
  | p :: rest, k => if p.1 == k then rest else p :: alPop rest k

/-- Python `d.update(other)`: fold `alSet` over the other dict's items in
order. -/
def alUpdate {α : Type} (base upd : List (String × α)) : List (String × α) :=
  upd.foldl (fun b p => alSet b p.1 p.2) base

/-- Membership of a key, Python `k in d`. -/
def alHas {α : Type} (kvs : List (String × α)) (k : String) : Bool :=
  (alGet kvs k).isSome

/-- Python truthiness of a JSON value (`not x` in the source): empty
string, zero, `False`, `None`, empty list and empty dict are falsy. -/
def pyFalsy : Json → Bool
  | .null => true
  | .bool b => !b
  | .num q => q == 0
  | .str s => s == ""
  | .arr xs => xs.isEmpty
  | .obj kvs => kvs.isEmpty

/-- Python `x or dflt` for the pattern `res.get("metrics", ...) or ...`:
the left operand unless it is falsy. -/
def pyOr (x dflt : Json) : Json :=
  if pyFalsy x then dflt else x

/-- Decimal digits of a natural number, most significant first; the fuel
argument keeps the recursion structural (kernel-reducible). -/
def natDigitsAux : Nat → Nat → List Char → List Char
  | 0, _, acc => acc
  | f + 1, n, acc =>
    let d := Char.ofNat (48 + n % 10)
    if n < 10 then d :: acc else natDigitsAux f (n / 10) (d :: acc)

/-- Decimal rendering of a natural number (Python `repr` of an int). -/
def natRepr (n : Nat) : String :=
  String.mk (natDigitsAux (n + 1) n [])

/-- Decimal rendering of an integer. -/
def intRepr : Int → String
  | .ofNat n => natRepr n
  | .negSucc n => "-" ++ natRepr (n + 1)

/-- Rendering of a JSON number by Python `json.dumps`.  Integral values
(every Python int) render exactly; the fallback for non-integral values is
a placeholder for Python float repr, which no theorem here depends on. -/
def numRepr (q : Rat) : String :=
  if q.den == 1 then intRepr q.num
  else intRepr q.num ++ "e-" ++ natRepr q.den

/-- Lowercase hex digit. -/
def hexDigitCh (n : Nat) : Char :=
  Char.ofNat (if n < 10 then 48 + n else 87 + n)

/-- Four lowercase hex digits of a code unit, for `\uXXXX` escapes. -/
def hex4 (n : Nat) : String :=
  String.mk [hexDigitCh (n / 4096 % 16), hexDigitCh (n / 256 % 16),
             hexDigitCh (n / 16 % 16), hexDigitCh (n % 16)]

/-- Escaping of one character by Python `json.dumps` with its default
`ensure_ascii=True`: quote and backslash are escaped, the usual control
shorthands are used, every other character outside printable ASCII becomes
`\uXXXX` (a surrogate pair beyond the BMP). -/
def escChar (c : Char) : String :=
  let n := c.toNat
  if n == 34 then String.mk [Char.ofNat 92, Char.ofNat 34]
  else if n == 92 then String.mk [Char.ofNat 92, Char.ofNat 92]
  else if n == 8 then "\\b"
  else if n == 9 then "\\t"
  else if n == 10 then "\\n"
  else if n == 12 then "\\f"
  else if n == 13 then "\\r"
  else if 32 ≤ n && n ≤ 126 then String.singleton c
  else if n < 65536 then "\\u" ++ hex4 n
  else "\\u" ++ hex4 (55296 + (n - 65536) / 1024) ++ "\\u" ++ hex4 (56320 + (n - 65536) % 1024)

/-- Rendering of a JSON string literal by `json.dumps`. -/
def dumpStr (s : String) : String :=
  "\"" ++ String.join (s.data.map escChar) ++ "\""

/-- Boolean lexicographic comparison of character lists by code point,
mirroring Python string `<` used by `sorted` on dict keys. -/
def chLtB : List Char → List Char → Bool
  | [], [] => false
  | [], _ :: _ => true
  | _ :: _, [] => false
  | a :: as, b :: bs =>
    if a.toNat < b.toNat then true
    else if b.toNat < a.toNat then false
    else chLtB as bs

/-- Python `s < t` on strings. -/
def strLtB (s t : String) : Bool := chLtB s.data t.data

/-- Insert a rendered key/value pair into a list sorted by key (Python
`sorted` over dict items for `sort_keys=True`). -/
def insPair (p : String × String) : List (String × String) → List (String × String)
  | [] => [p]
  | q :: rest => if strLtB q.1 p.1 then q :: insPair p rest else p :: q :: rest

/-- Insertion sort of rendered pairs by key. -/
def sortPairs : List (String × String) → List (String × String)
  | [] => []
  | p :: rest => insPair p (sortPairs rest)

/-- Comma-joined `"key":value` members from rendered pairs. -/
def joinRendered : List (String × String) → String
  | [] => ""
  | [p] => dumpStr p.1 ++ ":" ++ p.2
  | p :: q :: rest => dumpStr p.1 ++ ":" ++ p.2 ++ "," ++ joinRendered (q :: rest)

mutual

/-- Python `json.dumps(x, sort_keys=True, separators=(",", ":"))`: the
canonical compact encoding used for manifest signing. -/
def dumps : Json → String
  | .null => "null"
  | .bool true => "true"
  | .bool false => "false"
  | .num q => numRepr q
  | .str s => dumpStr s
  | .arr xs => "[" ++ dumpsArr xs ++ "]"
  | .obj kvs => "\x7b" ++ joinRendered (sortPairs (dumpsKVs kvs)) ++ "\x7d"

/-- Comma-joined renderings of array elements. -/
def dumpsArr : List Json → String
  | [] => ""
  | [x] => dumps x
  | x :: y :: rest => dumps x ++ "," ++ dumpsArr (y :: rest)

/-- Each object member with its value rendered, keys untouched. -/
def dumpsKVs : List (String × Json) → List (String × String)
  | [] => []
  | (k, v) :: rest => (k, dumps v) :: dumpsKVs rest

end

/-- Lowercasing of ASCII letters, Python `str.lower` on the ASCII strings
this code handles. -/
def pyLower (s : String) : String :=
  String.mk (s.data.map (fun c =>
    if 65 ≤ c.toNat && c.toNat ≤ 90 then Char.ofNat (c.toNat + 32) else c))

/-- UTF-8 bytes of one character, for Python `str.encode()`. -/
def utf8Char (c : Char) : List Nat :=
  let n := c.toNat
  if n < 128 then [n]
  else if n < 2048 then [192 + n / 64, 128 + n % 64]
  else if n < 65536 then [224 + n / 4096, 128 + n / 64 % 64, 128 + n % 64]
  else [240 + n / 262144, 128 + n / 4096 % 64, 128 + n / 64 % 64, 128 + n % 64]

/-- UTF-8 encoding of a string as a byte list, Python `str.encode()`. -/
def strBytes (s : String) : List Nat :=
  (s.data.map utf8Char).flatten

/-! SHA-256 (FIPS 180-4), the `hashlib.sha256` digest used for manifest
signing, over byte lists with 32-bit words as naturals masked to
`2 ^ 32`. -/

/-- Modulus `2 ^ 32` for word arithmetic. -/
def m32 : Nat := 4294967296

/-- Mask `2 ^ 32 - 1` for word arithmetic. -/
def mask32 : Nat := 4294967295

/-- The 64 SHA-256 round constants. -/
def sK : List Nat :=
  [1116352408, 1899447441, 3049323471, 3921009573, 961987163, 1508970993,
   2453635748, 2870763221, 3624381080, 310598401, 607225278, 1426881987,
   1925078388, 2162078206, 2614888103, 3248222580, 3835390401, 4022224774,
   264347078, 604807628, 770255983, 1249150122, 1555081692, 1996064986,
   2554220882, 2821834349, 2952996808, 3210313671, 3336571891, 3584528711,
   113926993, 338241895, 666307205, 773529912, 1294757372, 1396182291,
   1695183700, 1986661051, 2177026350, 2456956037, 2730485921, 2820302411,
   3259730800, 3345764771, 3516065817, 3600352804, 4094571909, 275423344,
   430227734, 506948616, 659060556, 883997877, 958139571, 1322822218,
   1537002063, 1747873779, 1955562222, 2024104815, 2227730452, 2361852424,
   2428436474, 2756734187, 3204031479, 3329325298]

/-- The 8 initial SHA-256 hash words. -/
def sH0 : List Nat :=
  [1779033703, 3144134277, 1013904242, 2773480762, 1359893119, 2600822924,
   528734635, 1541459225]

/-- Right rotation of a 32-bit word. -/
def rotr (x n : Nat) : Nat :=
  ((x >>> n) ||| (x <<< (32 - n))) &&& mask32

/-- SHA-256 big sigma 0. -/
def bsig0 (x : Nat) : Nat := (rotr x 2 ^^^ rotr x 13) ^^^ rotr x 22

/-- SHA-256 big sigma 1. -/
def bsig1 (x : Nat) : Nat := (rotr x 6 ^^^ rotr x 11) ^^^ rotr x 25

/-- SHA-256 small sigma 0. -/
def ssig0 (x : Nat) : Nat := (rotr x 7 ^^^ rotr x 18) ^^^ (x >>> 3)

/-- SHA-256 small sigma 1. -/
def ssig1 (x : Nat) : Nat := (rotr x 17 ^^^ rotr x 19) ^^^ (x >>> 10)

/-- SHA-256 choice function; complement is xor with the 32-bit mask. -/
def chF (x y z : Nat) : Nat := (x &&& y) ^^^ ((x ^^^ mask32) &&& z)

/-- SHA-256 majority function. -/
def majF (x y z : Nat) : Nat := ((x &&& y) ^^^ (x &&& z)) ^^^ (y &&& z)

/-- List element with default 0, for schedule taps. -/
def nth0 (l : List Nat) (n : Nat) : Nat := (l.get? n).getD 0

/-- One new message-schedule word from the last 16 words, most recent
first. -/
def schedWord (recent : List Nat) : Nat :=
  (ssig1 (nth0 recent 1) + nth0 recent 6 + ssig0 (nth0 recent 14) +
      nth0 recent 15) &&& mask32

/-- The remaining 48 message-schedule words, driven by fuel. -/
def buildSched : Nat → List Nat → List Nat
  | 0, _ => []
  | f + 1, recent =>
    let w := schedWord recent
    w :: buildSched f (w :: recent.take 15)

/-- One SHA-256 compression round on the 8-word state. -/
def compRound (st : List Nat) (kw : Nat × Nat) : List Nat :=
  match st with
  | [a, b, c, d, e, f, g, h] =>
    let t1 := (h + bsig1 e + chF e f g + kw.1 + kw.2) &&& mask32
    let t2 := (bsig0 a + majF a b c) &&& mask32
    [(t1 + t2) &&& mask32, a, b, c, (d + t1) % m32, e, f, g]
  | other => other

/-- Compression of one 16-word block into the running hash. -/
def compressBlock (h : List Nat) (block : List Nat) : List Nat :=
  let w := block ++ buildSched 48 block.reverse
  let st := (sK.zip w).foldl compRound h
  h.zipWith (fun x y => (x + y) % m32) st

/-- Big-endian 8-byte encoding of the bit length. -/
def lenBytes (n : Nat) : List Nat :=
  [n >>> 56 &&& 255, n >>> 48 &&& 255, n >>> 40 &&& 255, n >>> 32 &&& 255,
   n >>> 24 &&& 255, n >>> 16 &&& 255, n >>> 8 &&& 255, n &&& 255]

/-- SHA-256 padding: `0x80`, zeros to 56 mod 64, then the bit length. -/
def padBytes (msg : List Nat) : List Nat :=
  let L := msg.length
  let k := (120 - ((L + 1) % 64)) % 64
  msg ++ 128 :: List.replicate k 0 ++ lenBytes (8 * L)

/-- Big-endian packing of bytes into 32-bit words. -/
def bytesToWords : List Nat → List Nat
  | b0 :: b1 :: b2 :: b3 :: rest =>
    (b0 * 16777216 + b1 * 65536 + b2 * 256 + b3) :: bytesToWords rest
  | _ => []

/-- Splitting a word list into 16-word blocks, driven by fuel. -/
def chunk16 : Nat → List Nat → List (List Nat)
  | 0, _ => []
  | _ + 1, [] => []
  | f + 1, ws => ws.take 16 :: chunk16 f (ws.drop 16)

/-- The 8 final SHA-256 hash words of a byte message. -/
def sha256Words (msg : List Nat) : List Nat :=
  let ws := bytesToWords (padBytes msg)
  (chunk16 ws.length ws).foldl compressBlock sH0

/-- The SHA-256 digest as one 256-bit natural (big-endian word fold). -/
def digestNat (msg : List Nat) : Nat :=
  (sha256Words msg).foldl (fun acc w => acc * m32 + w) 0

/-- Fixed-width lowercase hex of the 256-bit digest, `hexdigest()`. -/
def natToHex64 (n : Nat) : String :=
  String.mk ((List.range 64).map (fun i => hexDigitCh ((n >>> (4 * (63 - i))) &&& 15)))

/-- Python `hashlib.sha256(bytes).hexdigest()`. -/
def sha256hex (msg : List Nat) : String := natToHex64 (digestNat msg)

/-! Manifest signing and verification: `sha256_manifest_without_sig` and
`verify_manifest` from `xova/evolve.py` (the same canonical digest appears
in `tools/sign_manifest.py`), and the pure core of `sign_manifest`. -/

/-- Python `got == want` where `got` is a string and `want` is the JSON
value stored under "signature": equal only when `want` is the same
string (Python equality between a str and a non-str is `False`). -/
def jsonStrEq (want : Json) (got : String) : Bool :=
  match want with
  | .str s => s == got
  | _ => false

/-- Canonical digest of a manifest: copy, drop the "signature" field,
serialize with sorted keys and compact separators, SHA-256 hex digest
(`sha256_manifest_without_sig` in `xova/evolve.py` lines 23-27). -/
def sha256_manifest_without_sig (man : Manifest) : String :=
  sha256hex (strBytes (dumps (Json.obj (alPop man "signature"))))

/-- Signature verification (`verify_manifest` in `xova/evolve.py` lines
30-35): falsy or missing stored signature fails, otherwise the recomputed
digest is compared to the stored value with Python `==`. -/
def verify_manifest (man : Manifest) : Bool :=
  let want := alGetD man "signature" (Json.str "")
  if pyFalsy want then false
  else jsonStrEq want (sha256_manifest_without_sig man)

/-- The pure core of `sign_manifest` in `tools/sign_manifest.py` lines
28-33: store the canonical digest under "signature". -/
def sign_manifest (man : Manifest) : Manifest :=
  alSet man "signature" (Json.str (sha256_manifest_without_sig man))

/-! Registry loading (`load_registry` in `xova/registry.py` lines 18-46).
The filesystem under the plugins root is modelled as an optional list of
directory entries in `iterdir` order, each carrying the parse status of
its `manifest.json`. -/

/-- Parse status of a plugin directory's `manifest.json`: absent file,
unreadable or malformed file (`json.JSONDecodeError`/`OSError`), or the
parsed JSON document. -/
inductive MFile where
  | missing : MFile
  | invalid : MFile
  | parsed (j : Json) : MFile

/-- One entry of the plugins root directory. -/
structure DirEnt where
  name : String
  isDir : Bool
  mfile : MFile

/-- Registry value for one plugin: the `plugin_info` dict with `name`,
`path` and `manifest` fields. -/
structure PEntry where
  name : String
  path : String
  manifest : Json

/-- Whether a path string is absolute (POSIX). -/
def isAbsPath (s : String) : Bool :=
  match s.data with
  | c :: _ => c.toNat == 47
  | [] => false

/-- Python `pathlib` `/` join: an absolute right operand stands alone. -/
def pathJoin (dir file : String) : String :=
  if isAbsPath file then file else dir ++ "/" ++ file

/-- Python dict insert keyed by plugin name
(`registry[plugin_path.name] = plugin_info`). -/
def regSet : List PEntry → PEntry → List PEntry
  | [], e => [e]
  | x :: rest, e => if x.name == e.name then e :: rest else x :: regSet rest e

/-- Python `registry.get(name)`. -/
def regGet : List PEntry → String → Option PEntry
  | [], _ => none
  | x :: rest, n => if x.name == n then some x else regGet rest n

/-- One `iterdir` step of registry construction threading the list of
warnings the code records; the `except` branch of the source only skips
(`continue`), recording nothing. -/
def regStep (root : String) (st : List PEntry × List String) (d : DirEnt) :
    List PEntry × List String :=
  if !d.isDir then st
  else match d.mfile with
    | .missing => st
    | .invalid => st
    | .parsed j => (regSet st.1 ⟨d.name, pathJoin root d.name, j⟩, st.2)

/-- Registry construction instrumented with the recorded warnings
(`load_registry`, with `none` for a nonexistent plugins root). -/
def load_registry_logged (root : String) (dir : Option (List DirEnt)) :
    List PEntry × List String :=
  match dir with
  | none => ([], [])
  | some entries => entries.foldl (regStep root) ([], [])

/-- The registry mapping returned by `load_registry`. -/
def load_registry (root : String) (dir : Option (List DirEnt)) : List PEntry :=
  (load_registry_logged root dir).1

/-! Candidate selection (`choose_candidates` in `xova/registry.py` lines
49-80) and ranking (`rank_candidates` in `xova/evolve.py` lines 49-57). -/

/-- Fields of a manifest; a non-dict manifest would raise `AttributeError`
in Python on `.get`, every theorem below keeps manifests as objects. -/
def jsonObjKvs : Json → List (String × Json)
  | .obj kvs => kvs
  | _ => []

/-- Whether the character-list pattern is an initial segment of the
text. -/
def chStarts : List Char → List Char → Bool
  | [], _ => true
  | _ :: _, [] => false
  | a :: as, b :: bs => a == b && chStarts as bs

/-- Substring search over character lists. -/
def chContains : List Char → List Char → Bool
  | [], pat => pat.isEmpty
  | c :: rest, pat => chStarts pat (c :: rest) || chContains rest pat

/-- Python `t in s` on strings: substring containment. -/
def strContains (s t : String) : Bool := chContains s.data t.data

/-- Python `x in container` with a string needle: list membership by
equality, substring test on a string, key membership on a dict; `none`
where Python raises `TypeError`. -/
def pyInJson (t : String) (container : Json) : Option Bool :=
  match container with
  | .arr xs => some (xs.any (fun x => jsonStrEq x t))
  | .str s => some (strContains s t)
  | .obj kvs => some (kvs.any (fun p => p.1 == t))
  | _ => none

/-- Whether a JSON value is hashable as a Python set element. -/
def pyHashable : Json → Bool
  | .arr _ => false
  | .obj _ => false
  | _ => true

/-- Python `set(req).issubset(set(c))` for a list of string requirements:
`set()` of a list needs hashable elements, of a string yields its
characters, of a dict its keys; `none` where Python raises. -/
def pyCapSubset (req : List String) (c : Json) : Option Bool :=
  match c with
  | .arr xs =>
    if xs.all pyHashable then some (req.all (fun t => xs.any (fun x => jsonStrEq x t)))
    else none
  | .str s => some (req.all (fun t => s.data.any (fun ch => t == String.mk [ch])))
  | .obj kvs => some (req.all (fun t => kvs.any (fun p => p.1 == t)))
  | _ => none

/-- Eligibility test of `choose_candidates`: the manifest's "apis" list
contains the requested api and its "capabilities" are a superset of the
required capabilities. -/
def eligibleB (api : String) (caps : List String) (e : PEntry) : Bool :=
  ((pyInJson api (alGetD (jsonObjKvs e.manifest) "apis" (Json.arr []))).getD false) &&
    ((pyCapSubset caps (alGetD (jsonObjKvs e.manifest) "capabilities" (Json.arr []))).getD false)

/-- Candidate selection: the registry entries passing `eligibleB`, in
registry iteration order. -/
def choose_candidates (registry : List PEntry) (api : String) (caps : List String) :
    List PEntry :=
  registry.filter (eligibleB api caps)

/-- Python `str.isdigit` restricted to ASCII (the repository's version
strings are ASCII). -/
def pyIsDigitStr (s : String) : Bool :=
  !s.data.isEmpty && s.data.all (fun c => 48 ≤ c.toNat && c.toNat ≤ 57)

/-- Numeric value of a digit string, Python `int(p)`. -/
def natOfDigits (s : String) : Nat :=
  s.data.foldl (fun acc c => acc * 10 + (c.toNat - 48)) 0

/-- Splitting on a dot with Python `str.split(".")` semantics (empty
pieces kept). -/
def splitDotCh : List Char → List Char → List String
  | [], cur => [String.mk cur.reverse]
  | c :: rest, cur =>
    if c.toNat == 46 then String.mk cur.reverse :: splitDotCh rest []
    else splitDotCh rest (c :: cur)

/-- Python `s.split(".")`. -/
def splitDot (s : String) : List String := splitDotCh s.data []

/-- The `vparts` key of `rank_candidates`: dot-separated components as
numbers, non-numeric components as zero. -/
def vparts (s : String) : List Nat :=
  (splitDot s).map (fun p => if pyIsDigitStr p then natOfDigits p else 0)

/-- The "version" field as the string `vparts` receives: default "0.0.0"
when absent, `none` when present but not a string (Python would raise on
`.split`). -/
def versionField (man : Json) : Option String :=
  match alGet (jsonObjKvs man) "version" with
  | none => some "0.0.0"
  | some (.str s) => some s
  | some _ => none

/-- Ranking key of a candidate, with a harmless default outside the
faithfully-modelled domain (see `versionField`). -/
def vkeyD (e : PEntry) : List Nat :=
  vparts ((versionField e.manifest).getD "0.0.0")

/-- Boolean lexicographic comparison of version keys: Python tuple `<`
with a strict prefix comparing as smaller. -/
def natListLt : List Nat → List Nat → Bool
  | [], [] => false
  | [], _ :: _ => true
  | _ :: _, [] => false
  | a :: as, b :: bs => decide (a < b) || (a == b && natListLt as bs)

/-- The ordering used by the stable descending sort of `rank_candidates`:
a candidate may precede another when its key is not strictly smaller. -/
def rankRel (a b : PEntry) : Prop :=
  natListLt (vkeyD a) (vkeyD b) = false

instance : DecidableRel rankRel := fun a b => by
  unfold rankRel; infer_instance

/-- Ranking (`rank_candidates`): under the "highest_version" rule, a
stable sort by version key descending (Python `sorted(key, reverse=True)`
keeps ties in original order); any other rule returns the input order. -/
def rank_candidates (cands : List PEntry) (prefer : Option String) : List PEntry :=
  if prefer == some "highest_version" then List.insertionSort rankRel cands
  else cands

/-! Threshold evaluation (`passes_thresholds` in `xova/evolve.py` lines
38-46). -/

/-- Python `a > b` on JSON values, `none` where it raises `TypeError`
(a string-to-number comparison, for example). -/
def pyGtB (a b : Json) : Option Bool :=
  match a, b with
  | .num x, .num y => some (decide (x > y))
  | _, _ => none

/-- Python `a < b` on JSON values, `none` where it raises. -/
def pyLtB (a b : Json) : Option Bool :=
  match a, b with
  | .num x, .num y => some (decide (x < y))
  | _, _ => none

/-- Threshold check: falsy thresholds pass; any "max"-bounded metric
present and above its bound fails; otherwise every "min"-bounded metric
present must not be below its bound (the for-loop with early return is the
`any`, the final `all` is literal). -/
def passes_thresholds (metrics : List (String × Json)) (thr : Json) : Bool :=
  if pyFalsy thr then true
  else
    let mx := jsonObjKvs (alGetD (jsonObjKvs thr) "max" (Json.obj []))
    let mn := jsonObjKvs (alGetD (jsonObjKvs thr) "min" (Json.obj []))
    if mx.any (fun p => alHas metrics p.1 &&
        ((pyGtB (alGetD metrics p.1 Json.null) p.2).getD false)) then false
    else mn.all (fun p => !(alHas metrics p.1 &&
        ((pyLtB (alGetD metrics p.1 Json.null) p.2).getD false)))

/-! Sandboxed execution (`run_plugin` and `create_mock_output` in
`xova/sandbox.py`).  The filesystem is a list of existing paths; the
child process's behaviour is an oracle record: whether the wait timed out,
the exit status, the raw standard output together with the result of
`json.loads` on it, the standard error text, and the measured wall-clock
duration. -/

/-- The manifest's "script" field with the source's default `run.py`
(a non-string value would raise in Python; theorems stay away). -/
def scriptNameOf (man : Json) : String :=
  match alGet (jsonObjKvs man) "script" with
  | some (.str s) => s
  | _ => "run.py"

/-- Entry-point resolution of `run_plugin` lines 21-34: the manifest
script joined to the plugin path, else the first existing alternative
name, else nothing (which triggers the mock fallback). -/
def locateScript (fs : List String) (pluginPath : String) (manifest : Json)
    (pluginName : String) : Option String :=
  let sp := pathJoin pluginPath (scriptNameOf manifest)
  if fs.contains sp then some sp
  else
    (["main.py", "plugin.py", pluginName ++ ".py"].filterMap (fun a =>
      let p := pathJoin pluginPath a
      if fs.contains p then some p else none)).head?

/-- Mock result for plugins without an executable script
(`create_mock_output`): canned artifacts and name-dependent canned
metrics; Python float literals appear as exact decimal rationals. -/
def create_mock_output (pluginName : String) (outDir : String) : Json :=
  let metrics : List (String × Json) :=
    if strContains (pyLower pluginName) "sequence" ||
        strContains (pyLower pluginName) "lucas" then
      [("order_k2", Json.num 0.15), ("order_k3", Json.num 0.08),
       ("convergence_rate", Json.num 0.618), ("sequence_length", Json.num 11)]
    else if strContains (pyLower pluginName) "order_meter" then
      [("order_k2", Json.num 0.12), ("order_k3", Json.num 0.06),
       ("entropy", Json.num 2.14), ("complexity", Json.num 0.85)]
    else
      [("order_k2", Json.num 0.11), ("order_k3", Json.num 0.07)]
  Json.obj [("status", Json.str "completed"), ("plugin", Json.str pluginName),
    ("artifacts", Json.obj [("sequence.wav", Json.str (pathJoin outDir "sequence.wav")),
      ("sequence.csv", Json.str (pathJoin outDir "sequence.csv"))]),
    ("metrics", Json.obj metrics)]

/-- Oracle record of one child-process run. -/
structure ProcBehavior where
  timedOut : Bool
  exitCode : Int
  stdoutRaw : String
  stdoutParsed : Option Json
  stderrTxt : String
  duration : Rat

/-- Python whitespace for `str.strip`. -/
def isPyWs (c : Char) : Bool :=
  c.toNat == 32 || (9 ≤ c.toNat && c.toNat ≤ 13)

/-- Python `s.strip()`. -/
def strStrip (s : String) : String :=
  String.mk (((s.data.dropWhile isPyWs).reverse.dropWhile isPyWs).reverse)

/-- Message of the outer `RuntimeError` wrapper of `run_plugin`. -/
def errExecFailed (name msg : String) : String :=
  "Plugin " ++ name ++ " execution failed: " ++ msg

/-- Message of the non-zero-exit `RuntimeError` (raised inside the `try`,
then re-wrapped by the generic handler). -/
def errNonzero (name : String) (code : Int) (stderrTxt : String) : String :=
  "Plugin " ++ name ++ " failed with exit code " ++ intRepr code ++ ": " ++ stderrTxt

/-- Message of the timeout `RuntimeError`. -/
def errTimeout (name : String) (tl : Rat) : String :=
  "Plugin " ++ name ++ " timed out after " ++ numRepr tl ++ "s"

/-- Sandboxed plugin execution (`run_plugin` lines 36-88), given the
child's behaviour as an oracle.  Exceptions are explicit `error` results;
the stand-in texts after `execution failed:` for the two `TypeError`
interception paths are not literal Python messages (no theorem inspects
them). -/
def run_plugin (fs : List String) (outDir : String) (e : PEntry) (timeLimit : Rat)
    (beh : ProcBehavior) : Except String Json :=
  match locateScript fs e.path e.manifest e.name with
  | none => .ok (create_mock_output e.name outDir)
  | some _ =>
    if beh.timedOut then .error (errTimeout e.name timeLimit)
    else if beh.exitCode != 0 then
      .error (errExecFailed e.name (errNonzero e.name beh.exitCode beh.stderrTxt))
    else
      let result :=
        match beh.stdoutParsed with
        | some j => j
        | none =>
          Json.obj [("status", Json.str "completed"),
            ("output", Json.str (strStrip beh.stdoutRaw)),
            ("artifacts", Json.obj []), ("metrics", Json.obj [])]
      match result with
      | .obj kvs =>
        match alGet kvs "metrics" with
        | none =>
          .ok (.obj (alSet kvs "metrics" (.obj [("execution_time_s", Json.num beh.duration)])))
        | some (.obj m) =>
          .ok (.obj (alSet kvs "metrics" (.obj (alSet m "execution_time_s" (Json.num beh.duration)))))
        | some _ => .error (errExecFailed e.name "metrics field does not support item assignment")
      | _ => .error (errExecFailed e.name "reply has no setdefault attribute")

/-! The evolution orchestrator (`evolve` in `xova/evolve.py` lines
79-171).  File loading, directory creation and the summary writes are
glue outside the loop; the per-candidate `run_plugin` calls and the
measured latency are supplied by an environment of oracles (the computed
`time_limit_s` is absorbed into them). -/

/-- Process-wide policy (`policies/default.json` after `load_policy`). -/
structure Policy where
  requireSignatures : Bool
  timeS : Rat
  prefer : Option String
  thresholds : Json
  postChain : List String

/-- Oracles for the effectful calls of one orchestration run: primary
trials, post-chain runs (called with the fixed wav parameters), and the
wall-clock latency measurement. -/
structure Env where
  runPrimary : PEntry → Except String Json
  runDep : PEntry → Except String Json
  latencyMs : PEntry → Rat

/-- Final state of a run: the process exit code, the JSON document the
run prints, and the content of the `errors` accumulator at return. -/
structure Outcome where
  exitCode : Nat
  printed : Json
  errlog : List Json

/-- Error entry for a bad signature. -/
def badSigErr (name : String) : Json :=
  Json.obj [("plugin", Json.str name), ("error", Json.str "bad-signature")]

/-- Error entry for an execution exception. -/
def excErr (name msg : String) : Json :=
  Json.obj [("plugin", Json.str name), ("error", Json.str ("exception:" ++ msg))]

/-- Warning entry for a missing post-chain plugin. -/
def missingPostW (candName depName : String) : Json :=
  Json.obj [("plugin", Json.str candName),
    ("warning", Json.str ("missing-post:" ++ depName))]

/-- Error entry for a post-chain exception. -/
def postExcErr (candName msg : String) : Json :=
  Json.obj [("plugin", Json.str candName),
    ("error", Json.str ("post-exception:" ++ msg))]

/-- Error entry for a threshold violation, carrying the metrics. -/
def badMetricsErr (name : String) (metrics : List (String × Json)) : Json :=
  Json.obj [("plugin", Json.str name), ("error", Json.str "bad-metrics"),
    ("metrics", Json.obj metrics)]

/-- One post-chain step (`evolve` lines 126-145): a missing dependent
plugin records a warning and is skipped; otherwise its metrics are merged
with `dict.update`; its failure records a post-exception error. -/
def chainStep (env : Env) (registry : List PEntry) (candName : String)
    (st : List (String × Json) × List Json) (depName : String) :
    List (String × Json) × List Json :=
  match regGet registry depName with
  | none => (st.1, st.2 ++ [missingPostW candName depName])
  | some dep =>
    match env.runDep dep with
    | .ok ar =>
      (alUpdate st.1 (jsonObjKvs (pyOr (alGetD (jsonObjKvs ar) "metrics" (Json.obj []))
        (Json.obj []))), st.2)
    | .error msg => (st.1, st.2 ++ [postExcErr candName msg])

/-- The printed document of a failed run. -/
def failedDoc (errs : List Json) : Json :=
  Json.obj [("status", Json.str "failed"), ("errors", Json.arr errs)]

/-- The candidate trial loop of `evolve` (lines 106-171): signature gate,
primary execution, latency metric, post chain, threshold gate,
first-success-wins, exhaustion with the accumulated errors. -/
def evolveLoop (env : Env) (pol : Policy) (registry : List PEntry)
    (tried : List String) : List PEntry → List Json → Outcome
  | [], errs => ⟨1, failedDoc errs, errs⟩
  | c :: rest, errs =>
    if pol.requireSignatures && !verify_manifest (jsonObjKvs c.manifest) then
      evolveLoop env pol registry tried rest (errs ++ [badSigErr c.name])
    else
      match env.runPrimary c with
      | .error msg => evolveLoop env pol registry tried rest (errs ++ [excErr c.name msg])
      | .ok res =>
        let m0 := jsonObjKvs (pyOr (alGetD (jsonObjKvs res) "metrics" (Json.obj []))
          (Json.obj []))
        let m1 := alSet m0 "latency_ms" (Json.num (env.latencyMs c))
        let st := pol.postChain.foldl (chainStep env registry c.name) (m1, errs)
        if !passes_thresholds st.1 pol.thresholds then
          evolveLoop env pol registry tried rest (st.2 ++ [badMetricsErr c.name st.1])
        else
          ⟨0, Json.obj [("status", Json.str "ok"), ("chosen", Json.str c.name),
            ("version", alGetD (jsonObjKvs c.manifest) "version" (Json.str "")),
            ("artifacts", alGetD (jsonObjKvs res) "artifacts" (Json.obj [])),
            ("metrics", Json.obj st.1), ("tried", Json.arr (tried.map Json.str))],
           st.2⟩

/-- Python apostrophe quoting for the repr of a capability list. -/
def quoteS (s : String) : String :=
  String.mk (Char.ofNat 39 :: s.data ++ [Char.ofNat 39])

/-- Comma-space joining for Python list repr. -/
def joinCommaSp : List String → String
  | [] => ""
  | [x] => x
  | x :: y :: r => x ++ ", " ++ joinCommaSp (y :: r)

/-- Python repr of a list of (plain ASCII) strings, as interpolated into
the no-match message. -/
def pyStrListRepr (xs : List String) : String :=
  "[" ++ joinCommaSp (xs.map quoteS) ++ "]"

/-- The no-candidates message of `evolve` lines 94-104. -/
def noMatchMsg (api : String) (caps : List String) : String :=
  "No plugin matches api=" ++ api ++ " caps=" ++ pyStrListRepr caps

/-- The whole orchestration run over pure inputs: selection, ranking, the
distinct no-candidates failure, or the trial loop. -/
def evolve (env : Env) (pol : Policy) (registry : List PEntry) (api : String)
    (caps : List String) : Outcome :=
  let cands := rank_candidates (choose_candidates registry api caps) pol.prefer
  if cands.isEmpty then
    ⟨1, failedDoc [Json.str (noMatchMsg api caps)], []⟩
  else evolveLoop env pol registry (cands.map (fun e => e.name)) cands []

/-- Well-formedness of a manifest for selection and ranking: it is a JSON
object, its "apis" and "capabilities" fields (after the source's `.get`
defaults) are lists of set-hashable values, and its "version" field is a
string when present.  Inputs outside this domain make the Python source
raise, so the selection theorems assume it. -/
def WFManifest (m : Json) : Prop :=
  (∃ kvs, m = Json.obj kvs) ∧
  (∃ xs, alGetD (jsonObjKvs m) "apis" (Json.arr []) = Json.arr xs) ∧
  (∃ xs, alGetD (jsonObjKvs m) "capabilities" (Json.arr []) = Json.arr xs ∧
    ∀ x ∈ xs, pyHashable x = true) ∧
  (versionField m).isSome = true

/-- Specification-side eligibility, following the spec's words: the
manifest's supported-request-kinds list contains the request kind, and its
capability tag set is a superset of the required capabilities. -/
def specEligible (api : String) (caps : List String) (e : PEntry) : Prop :=
  (∃ xs, alGetD (jsonObjKvs e.manifest) "apis" (Json.arr []) = Json.arr xs ∧
    Json.str api ∈ xs) ∧
  (∃ xs, alGetD (jsonObjKvs e.manifest) "capabilities" (Json.arr []) = Json.arr xs ∧
    ∀ c ∈ caps, Json.str c ∈ xs)

/-- Specification-side view for the registry theorems: the registry entry
of the last well-formed plugin directory carrying a given name (Python
dict writes make the last occurrence win). -/
def lastGoodEntry (root : String) (l : List DirEnt) (n : String) : Option PEntry :=
  ((l.filterMap (fun d =>
      match d.isDir, d.mfile with
      | true, MFile.parsed j => some (⟨d.name, pathJoin root d.name, j⟩ : PEntry)
      | _, _ => none)).reverse.find? (fun e => e.name == n))

/-- Concrete two-entry registry fixture for selection witnesses. -/
def regW : List PEntry :=
  [⟨"alpha", "/plugins/alpha", Json.obj [("apis", Json.arr [Json.str "nine"]),
      ("capabilities", Json.arr [Json.str "x"]), ("version", Json.str "1.0.0")]⟩,
   ⟨"beta", "/plugins/beta", Json.obj [("apis", Json.arr [Json.str "nine"]),
      ("capabilities", Json.arr [Json.str "x"]), ("version", Json.str "2.0.0")]⟩]

/-- Environment stub for orchestrator witnesses that never reach an
execution. -/
def envStub : Env :=
  ⟨fun _ => Except.error "stub", fun _ => Except.error "stub", fun _ => 0⟩

/-- Policy stub with strict signatures and no chain. -/
def polStub : Policy :=
  ⟨true, 15, some "highest_version", Json.obj [], []⟩

/-- Environment whose primary trial succeeds with fixed metrics, for the
post-chain witness. -/
def envC10 : Env :=
  ⟨fun _ => Except.ok (Json.obj [("metrics", Json.obj [("order_k2", Json.num 1)]),
      ("artifacts", Json.obj [])]),
   fun _ => Except.error "unused", fun _ => 7⟩

/-- Policy with one post-chain step and no other gates, for the
post-chain witness. -/
def polC10 : Policy :=
  ⟨false, 15, none, Json.obj [], ["codex.order_meter"]⟩

/-- Candidate fixture for orchestrator witnesses. -/
def candC10 : PEntry :=
  ⟨"alpha", "/plugins/alpha", Json.obj [("version", Json.str "1.0.0")]⟩

/-! Fixtures for the collision argument about mutation detection. -/

/-- Distinct plain manifest names, one per natural number. -/
def aName (n : Nat) : String := String.mk (List.replicate n (Char.ofNat 97))

/-- Fixture manifest with only a name field. -/
def mani (n : Nat) : Manifest := [("name", Json.str (aName n))]

/-- Canonical signing bytes of a fixture manifest. -/
def caBytes (n : Nat) : List Nat :=
  strBytes (dumps (Json.obj (alPop (mani n) "signature")))

/-- The correct canonical digest of the demo manifest below, with its hex
letters uppercased. -/
def demoSigUp : String :=
  "68FA83DD5799EE4C5690BBEF16B4204C16944A04A99D3F926F891FCFE08835AF"

/-- Demo manifest whose stored signature differs from the correct digest
only in hex letter case. -/
def demoManifest : Manifest :=
  [("name", Json.str "demo"), ("version", Json.str "1.0.0"),
   ("signature", Json.str demoSigUp)]

/-! Theorems. -/

theorem alGet_alSet_self {α : Type} (kvs : List (String × α)) (k : String) (v : α) :
    alGet (alSet kvs k v) k = some v := by
  induction kvs with
  | nil => simp [alSet, alGet]
  | cons p rest ih =>
    by_cases h : p.1 = k
    · simp [alSet, alGet, h]
    · have hb : (p.1 == k) = false := beq_eq_false_iff_ne.mpr h
      simp [alSet, alGet, hb, ih]

theorem alGet_alSet_ne {α : Type} (kvs : List (String × α)) (k k' : String) (v : α)
    (h : k' ≠ k) : alGet (alSet kvs k v) k' = alGet kvs k' := by
  induction kvs with
  | nil =>
    have hb : (k == k') = false := beq_eq_false_iff_ne.mpr (fun he => h he.symm)
    simp [alSet, alGet, hb]
  | cons p rest ih =>
    by_cases hp : p.1 = k
    · have hb1 : (p.1 == k) = true := beq_iff_eq.mpr hp
      have hb2 : (k == k') = false := beq_eq_false_iff_ne.mpr (fun he => h he.symm)
      have hb3 : (p.1 == k') = false := by rw [hp]; exact hb2
      simp [alSet, alGet, hb1, hb2, hb3]
    · have hb1 : (p.1 == k) = false := beq_eq_false_iff_ne.mpr hp
      simp [alSet, alGet, hb1, ih]

theorem alPop_alSet_self {α : Type} (kvs : List (String × α)) (k : String) (v : α) :
    alPop (alSet kvs k v) k = alPop kvs k := by
  induction kvs with
  | nil => simp [alSet, alPop]
  | cons p rest ih =>
    by_cases h : p.1 = k
    · simp [alSet, alPop, h]
    · have hb : (p.1 == k) = false := beq_eq_false_iff_ne.mpr h
      simp [alSet, alPop, hb, ih]

theorem natToHex64_length (n : Nat) : (natToHex64 n).length = 64 := by
  simp [natToHex64, String.length]

theorem natToHex64_beq_empty (n : Nat) : (natToHex64 n == "") = false := by
  apply beq_eq_false_iff_ne.mpr
  intro h
  have := congrArg String.length h
  rw [natToHex64_length] at this
  simp [String.length] at this

theorem strBeqComm (a b : String) : (a == b) = (b == a) := by
  by_cases h : a = b
  · subst h; rfl
  · rw [beq_eq_false_iff_ne.mpr h, beq_eq_false_iff_ne.mpr (fun he => h he.symm)]

theorem sha_wo_sig_beq_empty (man : Manifest) :
    (sha256_manifest_without_sig man == "") = false := by
  unfold sha256_manifest_without_sig sha256hex
  exact natToHex64_beq_empty _

theorem sha_wo_sig_sign (man : Manifest) :
    sha256_manifest_without_sig (sign_manifest man) = sha256_manifest_without_sig man := by
  unfold sha256_manifest_without_sig sign_manifest
  rw [alPop_alSet_self]

theorem verify_manifest_of_get (man : Manifest) (s : String)
    (h : alGet man "signature" = some (Json.str s)) :
    verify_manifest man = (!(s == "") && (s == sha256_manifest_without_sig man)) := by
  unfold verify_manifest alGetD
  rw [h]
  show (if pyFalsy (Json.str s) = true then false
      else jsonStrEq (Json.str s) (sha256_manifest_without_sig man)) = _
  by_cases he : s = ""
  · subst he; simp [pyFalsy, jsonStrEq]
  · rw [show pyFalsy (Json.str s) = (s == "") from rfl, beq_eq_false_iff_ne.mpr he]
    simp [jsonStrEq]

/-- Claim C4 (amended): signing then verifying a manifest always succeeds,
and after mutating any field of the signed manifest other than the
signature, verification succeeds exactly when the SHA-256 canonical digest
of the mutated manifest coincides with that of the original (in
particular it fails whenever the digests differ). -/
theorem c4_sign_verify_roundtrip :
    (∀ man : Manifest, verify_manifest (sign_manifest man) = true) ∧
    (∀ (man : Manifest) (k : String) (v : Json), k ≠ "signature" →
      verify_manifest (alSet (sign_manifest man) k v) =
        (sha256_manifest_without_sig (alSet (sign_manifest man) k v) ==
          sha256_manifest_without_sig man)) := by
  constructor
  · intro man
    have hget : alGet (sign_manifest man) "signature" =
        some (Json.str (sha256_manifest_without_sig man)) :=
      alGet_alSet_self man "signature" _
    rw [verify_manifest_of_get _ _ hget, sha_wo_sig_sign, sha_wo_sig_beq_empty]
    simp
  · intro man k v hk
    have hget : alGet (alSet (sign_manifest man) k v) "signature" =
        some (Json.str (sha256_manifest_without_sig man)) := by
      rw [alGet_alSet_ne _ k "signature" v (fun he => hk he.symm)]
      exact alGet_alSet_self man "signature" _
    rw [verify_manifest_of_get _ _ hget, sha_wo_sig_beq_empty]
    simp [strBeqComm]

/-- Witness for C4: the amended equation applied to a concrete one-field
manifest with its name field mutated. -/
theorem c4_sign_verify_roundtrip_witness :
    verify_manifest (alSet (sign_manifest [("name", Json.str "demo")]) "name" (Json.str "x")) =
      (sha256_manifest_without_sig
          (alSet (sign_manifest [("name", Json.str "demo")]) "name" (Json.str "x")) ==
        sha256_manifest_without_sig [("name", Json.str "demo")]) :=
  c4_sign_verify_roundtrip.2 [("name", Json.str "demo")] "name" (Json.str "x") (by decide)

theorem compRound_length (st : List Nat) (kw : Nat × Nat) :
    (compRound st kw).length = st.length := by
  unfold compRound
  split <;> simp_all

theorem foldl_compRound_length (l : List (Nat × Nat)) (st : List Nat) :
    (l.foldl compRound st).length = st.length := by
  induction l generalizing st with
  | nil => rfl
  | cons kw rest ih => rw [List.foldl_cons, ih, compRound_length]

theorem mem_zipWith_mod (xs ys : List Nat) (z : Nat)
    (hz : z ∈ xs.zipWith (fun x y => (x + y) % m32) ys) : z < m32 := by
  induction xs generalizing ys with
  | nil => simp [List.zipWith] at hz
  | cons x xs ih =>
    cases ys with
    | nil => simp [List.zipWith] at hz
    | cons y ys =>
      simp only [List.zipWith, List.mem_cons] at hz
      rcases hz with h | h
      · exact h ▸ Nat.mod_lt _ (by decide)
      · exact ih ys h

theorem compressBlock_inv (h b : List Nat) (hh : h.length = 8) :
    (compressBlock h b).length = 8 ∧ ∀ w ∈ compressBlock h b, w < m32 := by
  constructor
  · show (h.zipWith _ _).length = 8
    rw [List.length_zipWith, foldl_compRound_length, hh]
    simp
  · intro w hw
    exact mem_zipWith_mod _ _ _ hw

theorem foldl_compressBlock_inv (blocks : List (List Nat)) (h : List Nat)
    (hh : h.length = 8 ∧ ∀ w ∈ h, w < m32) :
    (blocks.foldl compressBlock h).length = 8 ∧
      ∀ w ∈ blocks.foldl compressBlock h, w < m32 := by
  induction blocks generalizing h with
  | nil => exact hh
  | cons b rest ih =>
    rw [List.foldl_cons]
    exact ih _ (compressBlock_inv h b hh.1)

theorem sha256Words_inv (msg : List Nat) :
    (sha256Words msg).length = 8 ∧ ∀ w ∈ sha256Words msg, w < m32 := by
  unfold sha256Words
  exact foldl_compressBlock_inv _ sH0 ⟨by decide, by decide⟩

theorem foldl_digest_lt (ws : List Nat) : ∀ a A : Nat, a < A → (∀ w ∈ ws, w < m32) →
    ws.foldl (fun acc w => acc * m32 + w) a < A * m32 ^ ws.length := by
  induction ws with
  | nil => intro a A hA _; simpa using hA
  | cons w rest ih =>
    intro a A hA hw
    rw [List.foldl_cons, List.length_cons]
    have hwlt : w < m32 := hw w (List.mem_cons_self _ _)
    have h1 : a * m32 + w < A * m32 := by
      calc a * m32 + w < (a + 1) * m32 := by nlinarith
        _ ≤ A * m32 := Nat.mul_le_mul_right _ hA
    have h2 := ih (a * m32 + w) (A * m32) h1 (fun w2 hw2 => hw w2 (List.mem_cons_of_mem _ hw2))
    calc rest.foldl (fun acc w => acc * m32 + w) (a * m32 + w) <
        A * m32 * m32 ^ rest.length := h2
      _ = A * m32 ^ (rest.length + 1) := by ring

theorem digestNat_lt (msg : List Nat) : digestNat msg < 2 ^ 256 := by
  obtain ⟨hlen, hw⟩ := sha256Words_inv msg
  have h := foldl_digest_lt (sha256Words msg) 0 1 (by decide) hw
  rw [hlen] at h
  have hm : 1 * m32 ^ 8 = 2 ^ 256 := by norm_num [m32]
  unfold digestNat
  rw [← hm]
  exact h

theorem sign_mani_eq (n : Nat) :
    sign_manifest (mani n) =
      [("name", Json.str (aName n)), ("signature", Json.str (sha256hex (caBytes n)))] := by
  show alSet (mani n) "signature" (Json.str (sha256_manifest_without_sig (mani n))) = _
  rw [show sha256_manifest_without_sig (mani n) = sha256hex (caBytes n) from rfl]
  simp [mani, alSet]

set_option maxHeartbeats 1000000 in
/-- Counterexample to claim C4 as stated: it is not true that mutating a
non-signature field of a signed manifest always makes verification fail;
by pigeonhole over the 256-bit digest space, two of the fixture manifests
share a canonical digest, and renaming one signed fixture into the other
leaves verification succeeding. -/
theorem c4_counterexample :
    ¬ (∀ (man : Manifest) (k : String) (v : Json), k ≠ "signature" →
        (∃ w, alGet (sign_manifest man) k = some w ∧ w ≠ v) →
        verify_manifest (alSet (sign_manifest man) k v) = false) := by
  intro hclaim
  have hni : ¬ Function.Injective
      (fun i : Fin (2 ^ 256 + 1) =>
        (⟨digestNat (caBytes i.val), digestNat_lt _⟩ : Fin (2 ^ 256))) := by
    intro hinj
    have hcard := Fintype.card_le_of_injective _ hinj
    simp only [Fintype.card_fin] at hcard
    exact Nat.not_succ_le_self _ hcard
  obtain ⟨i, j, hfe, hij⟩ := Function.not_injective_iff.mp hni
  have hdig : digestNat (caBytes i.val) = digestNat (caBytes j.val) := congrArg Fin.val hfe
  have hvne : i.val ≠ j.val := fun h => hij (Fin.ext h)
  have hnm : aName i.val ≠ aName j.val := by
    intro h
    apply hvne
    have h2 : List.replicate i.val (Char.ofNat 97) = List.replicate j.val (Char.ofNat 97) :=
      congrArg String.data h
    have h3 := congrArg List.length h2
    simpa using h3
  have hget : alGet (sign_manifest (mani i.val)) "name" = some (Json.str (aName i.val)) := by
    rw [sign_mani_eq]
    simp [alGet]
  have hmut : alSet (sign_manifest (mani i.val)) "name" (Json.str (aName j.val)) =
      [("name", Json.str (aName j.val)), ("signature", Json.str (sha256hex (caBytes i.val)))] := by
    rw [sign_mani_eq]
    simp [alSet]
  have happ := hclaim (mani i.val) "name" (Json.str (aName j.val)) (by decide)
    ⟨Json.str (aName i.val), hget, fun hw => hnm (Json.str.inj hw)⟩
  have hver : verify_manifest
      (alSet (sign_manifest (mani i.val)) "name" (Json.str (aName j.val))) = true := by
    rw [hmut]
    have hgs : alGet [("name", Json.str (aName j.val)),
        ("signature", Json.str (sha256hex (caBytes i.val)))] "signature" =
        some (Json.str (sha256hex (caBytes i.val))) := by
      simp [alGet]
    rw [verify_manifest_of_get _ _ hgs]
    have hd : sha256_manifest_without_sig [("name", Json.str (aName j.val)),
        ("signature", Json.str (sha256hex (caBytes i.val)))] = sha256hex (caBytes j.val) := by
      unfold sha256_manifest_without_sig
      rw [show alPop [("name", Json.str (aName j.val)),
            ("signature", Json.str (sha256hex (caBytes i.val)))] "signature" =
            [("name", Json.str (aName j.val))] from by simp [alPop]]
      unfold caBytes
      rw [show alPop (mani j.val) "signature" = [("name", Json.str (aName j.val))] from by
            simp [mani, alPop]]
    rw [hd]
    have h2 : sha256hex (caBytes i.val) = sha256hex (caBytes j.val) := by
      unfold sha256hex
      rw [hdig]
    have h3 : (sha256hex (caBytes i.val) == "") = false := natToHex64_beq_empty _
    rw [h2] at h3 ⊢
    rw [h3]
    simp
  exact Bool.false_ne_true (happ.symm.trans hver)

set_option maxHeartbeats 4000000 in
/-- Counterexample to claim C5 as stated: a concrete manifest whose
stored signature differs from the correct canonical digest only in hex
letter case fails verification (the source compares with exact string
equality), so the comparison is not case-insensitive. -/
theorem c5_counterexample :
    pyLower demoSigUp = sha256_manifest_without_sig demoManifest ∧
    demoSigUp ≠ sha256_manifest_without_sig demoManifest ∧
    verify_manifest demoManifest = false := by
  refine ⟨by decide, by decide, by decide⟩

/-- Claim C5 (amended): verification compares the recomputed digest to the
stored signature with exact, case-sensitive string equality (so any
stored value other than the exact lowercase hex digest fails), and an
empty or missing signature always verifies as false. -/
theorem c5_verify_exact :
    (∀ man : Manifest, alGet man "signature" = none → verify_manifest man = false) ∧
    (∀ man : Manifest, alGet man "signature" = some (Json.str "") →
      verify_manifest man = false) ∧
    (∀ (man : Manifest) (s : String), alGet man "signature" = some (Json.str s) →
      verify_manifest man = (!(s == "") && (s == sha256_manifest_without_sig man))) := by
  refine ⟨?_, ?_, ?_⟩
  · intro man h
    unfold verify_manifest alGetD
    rw [h]
    simp [pyFalsy]
  · intro man h
    rw [verify_manifest_of_get man "" h]
    simp
  · intro man s h
    exact verify_manifest_of_get man s h

/-- Witness for C5: the amended characterisation applied to the empty
manifest and to a one-field manifest with a garbage signature. -/
theorem c5_verify_exact_witness :
    verify_manifest [] = false ∧
    verify_manifest [("signature", Json.str "x")] =
      (!(("x" : String) == "") &&
        ("x" == sha256_manifest_without_sig [("signature", Json.str "x")])) :=
  ⟨c5_verify_exact.1 [] rfl, c5_verify_exact.2.2 [("signature", Json.str "x")] "x" rfl⟩

theorem regStep_snd (root : String) (st : List PEntry × List String) (d : DirEnt) :
    (regStep root st d).2 = st.2 := by
  unfold regStep
  split
  · rfl
  · split <;> rfl

theorem foldl_regStep_snd (root : String) (l : List DirEnt) :
    ∀ st : List PEntry × List String, (l.foldl (regStep root) st).2 = st.2 := by
  induction l with
  | nil => intro st; rfl
  | cons d rest ih => intro st; rw [List.foldl_cons, ih, regStep_snd]

theorem regStep_skip (root : String) (st : List PEntry × List String) (d : DirEnt)
    (h : d.isDir = false ∨ d.mfile = MFile.missing ∨ d.mfile = MFile.invalid) :
    regStep root st d = st := by
  unfold regStep
  rcases h with h | h | h <;> simp [h]

theorem regGet_regSet (reg : List PEntry) (e : PEntry) (n : String) :
    regGet (regSet reg e) n = if e.name == n then some e else regGet reg n := by
  induction reg with
  | nil => rfl
  | cons x rest ih =>
    unfold regSet
    by_cases hx : x.name = e.name
    · rw [if_pos (beq_iff_eq.mpr hx)]
      by_cases hen : e.name = n
      · simp [regGet, hen]
      · have hxn : x.name ≠ n := fun h => hen (hx.symm.trans h)
        simp [regGet, beq_eq_false_iff_ne.mpr hen, beq_eq_false_iff_ne.mpr hxn]
    · rw [if_neg (by simpa using hx)]
      by_cases hxn : x.name = n <;> by_cases hen : e.name = n
      · exact absurd (hxn.trans hen.symm) hx
      · simp [regGet, hxn, beq_eq_false_iff_ne.mpr hen]
      · simp [regGet, beq_eq_false_iff_ne.mpr hxn, hen, ih]
      · simp [regGet, beq_eq_false_iff_ne.mpr hxn, beq_eq_false_iff_ne.mpr hen, ih]

theorem regGet_foldl_regStep (root : String) (l : List DirEnt) :
    ∀ (st : List PEntry × List String) (n : String),
      regGet ((l.foldl (regStep root) st).1) n =
        (lastGoodEntry root l n).or (regGet st.1 n) := by
  induction l with
  | nil => intro st n; simp [lastGoodEntry, Option.or]
  | cons d rest ih =>
    intro st n
    rw [List.foldl_cons]
    by_cases hdir : d.isDir
    · rcases hmf : d.mfile with _ | _ | j
      · rw [regStep_skip root st d (Or.inr (Or.inl hmf)), ih]
        simp [lastGoodEntry, hmf]
      · rw [regStep_skip root st d (Or.inr (Or.inr hmf)), ih]
        simp [lastGoodEntry, hmf]
      · have hstep : regStep root st d =
            (regSet st.1 ⟨d.name, pathJoin root d.name, j⟩, st.2) := by
          simp [regStep, hmf, hdir]
        rw [hstep, ih, regGet_regSet]
        have hfm : lastGoodEntry root (d :: rest) n =
            (lastGoodEntry root rest n).or
              (if (⟨d.name, pathJoin root d.name, j⟩ : PEntry).name == n
                then some (⟨d.name, pathJoin root d.name, j⟩ : PEntry) else none) := by
          unfold lastGoodEntry
          simp [List.filterMap_cons, hdir, hmf, List.reverse_cons, List.find?_append]
        rw [hfm]
        by_cases hb : (⟨d.name, pathJoin root d.name, j⟩ : PEntry).name == n
        · simp [hb, Option.or_assoc, Option.or_some]
        · simp [Bool.eq_false_iff.mpr hb, Option.or_none]
    · rw [regStep_skip root st d (Or.inl (by simpa using hdir)), ih]
      simp [lastGoodEntry, Bool.eq_false_iff.mpr hdir]

/-- Claim C9 (amended): registry construction is total — for every plugins
root it returns a mapping: a manifest that fails to parse (or a non-dir or
manifest-less entry) is skipped silently, the source recording no warning
(its except branch only continues), while every remaining well-formed
manifest is loaded into the catalog keyed by its directory name, the last
occurrence of a name winning. -/
theorem c9_registry_total_silent_skip :
    (∀ (root : String) (dir : Option (List DirEnt)),
      (load_registry_logged root dir).2 = []) ∧
    (∀ (root : String) (pre post : List DirEnt) (d : DirEnt),
      d.isDir = false ∨ d.mfile = MFile.missing ∨ d.mfile = MFile.invalid →
      load_registry root (some (pre ++ d :: post)) =
        load_registry root (some (pre ++ post))) ∧
    (∀ (root : String) (l : List DirEnt) (n : String),
      regGet (load_registry root (some l)) n = lastGoodEntry root l n) := by
  refine ⟨?_, ?_, ?_⟩
  · intro root dir
    cases dir with
    | none => rfl
    | some l => exact foldl_regStep_snd root l ([], [])
  · intro root pre post d h
    unfold load_registry load_registry_logged
    show (List.foldl (regStep root) ([], []) (pre ++ d :: post)).1 =
      (List.foldl (regStep root) ([], []) (pre ++ post)).1
    rw [List.foldl_append, List.foldl_append, List.foldl_cons, regStep_skip root _ d h]
  · intro root l n
    show regGet ((load_registry_logged root (some l)).1) n = _
    unfold load_registry_logged
    rw [regGet_foldl_regStep]
    simp [regGet, Option.or_none]

/-- Witness for C9: a malformed manifest directory is dropped from
registry construction. -/
theorem c9_registry_total_silent_skip_witness :
    load_registry "/plugins" (some ([] ++ (⟨"bad", true, MFile.invalid⟩ :: []))) =
      load_registry "/plugins" (some ([] ++ [])) :=
  c9_registry_total_silent_skip.2.1 "/plugins" [] [] ⟨"bad", true, MFile.invalid⟩
    (Or.inr (Or.inr rfl))

/-- Counterexample to claim C9 as stated: with one malformed and one
well-formed manifest, construction succeeds and loads the well-formed one
keyed by its directory name, but the recorded-warning trail the claim
promises is empty — the source records nothing when it skips. -/
theorem c9_counterexample :
    load_registry_logged "/plugins"
      (some [⟨"bad", true, MFile.invalid⟩,
        ⟨"good", true, MFile.parsed (Json.obj [("version", Json.str "1.0.0")])⟩]) =
      ([⟨"good", "/plugins/good", Json.obj [("version", Json.str "1.0.0")]⟩], []) := by
  rfl

theorem natListLt_irrefl (a : List Nat) : natListLt a a = false := by
  induction a with
  | nil => rfl
  | cons x xs ih => simp [natListLt, ih]

theorem natListLt_asymm (a : List Nat) : ∀ b, natListLt a b = true → natListLt b a = false := by
  induction a with
  | nil =>
    intro b _
    cases b with
    | nil => rfl
    | cons y ys => rfl
  | cons x xs ih =>
    intro b hab
    cases b with
    | nil => simp [natListLt] at hab
    | cons y ys =>
      simp only [natListLt, Bool.or_eq_true, Bool.and_eq_true, decide_eq_true_eq,
        beq_iff_eq] at hab
      simp only [natListLt, Bool.or_eq_false_iff, Bool.and_eq_false_iff,
        decide_eq_false_iff_not]
      rcases hab with h | ⟨hxy, hr⟩
      · constructor
        · omega
        · left
          exact beq_eq_false_iff_ne.mpr (by omega)
      · constructor
        · omega
        · right
          exact ih ys hr

theorem natListLt_neg_trans (a : List Nat) : ∀ b c, natListLt a b = false →
    natListLt b c = false → natListLt a c = false := by
  induction a with
  | nil =>
    intro b c hab hbc
    cases b with
    | nil =>
      cases c with
      | nil => rfl
      | cons z zs => simp [natListLt] at hbc
    | cons y ys => simp [natListLt] at hab
  | cons x xs ih =>
    intro b c hab hbc
    cases c with
    | nil => rfl
    | cons z zs =>
      cases b with
      | nil => simp [natListLt] at hbc
      | cons y ys =>
        simp only [natListLt, Bool.or_eq_false_iff, Bool.and_eq_false_iff,
          decide_eq_false_iff_not, beq_eq_false_iff_ne] at hab hbc ⊢
        obtain ⟨h1, h2⟩ := hab
        obtain ⟨h3, h4⟩ := hbc
        constructor
        · omega
        · by_cases hxz : x = z
          · right
            have hxy : x = y := by omega
            have hyz : y = z := by omega
            rcases h2 with h2 | h2
            · exact absurd hxy h2
            · rcases h4 with h4 | h4
              · exact absurd hyz h4
              · exact ih ys zs h2 h4
          · left
            exact hxz

theorem filter_orderedInsert_key (x : PEntry) (l : List PEntry) (key : List Nat) :
    (List.orderedInsert rankRel x l).filter (fun e => vkeyD e == key) =
      if vkeyD x == key then x :: l.filter (fun e => vkeyD e == key)
      else l.filter (fun e => vkeyD e == key) := by
  induction l with
  | nil =>
    by_cases hp : (vkeyD x == key) = true <;>
      simp [List.orderedInsert, List.filter, hp]
  | cons y ys ih =>
    unfold List.orderedInsert
    by_cases hr : rankRel x y
    · rw [if_pos hr]
      by_cases hp : (vkeyD x == key) = true <;> simp [List.filter, hp]
    · rw [if_neg hr]
      have hlt : natListLt (vkeyD x) (vkeyD y) = true := by
        cases h : natListLt (vkeyD x) (vkeyD y)
        · exact absurd h hr
        · rfl
      by_cases hp : (vkeyD x == key) = true
      · have hkx : vkeyD x = key := beq_iff_eq.mp hp
        have hpy : (vkeyD y == key) = false := by
          apply beq_eq_false_iff_ne.mpr
          intro hyk
          rw [hkx, hyk] at hlt
          rw [natListLt_irrefl key] at hlt
          exact Bool.false_ne_true hlt
        simp [List.filter, hpy, ih, hp]
      · have hpx : (vkeyD x == key) = false := Bool.eq_false_iff.mpr hp
        by_cases hpy : (vkeyD y == key) = true <;>
          simp [List.filter, hpy, ih, hpx]

theorem filter_insertionSort_key (l : List PEntry) (key : List Nat) :
    (List.insertionSort rankRel l).filter (fun e => vkeyD e == key) =
      l.filter (fun e => vkeyD e == key) := by
  induction l with
  | nil => rfl
  | cons x xs ih =>
    rw [List.insertionSort, filter_orderedInsert_key, ih]
    by_cases hp : (vkeyD x == key) = true <;> simp [List.filter, hp]

theorem rank_hv (cands : List PEntry) :
    rank_candidates cands (some "highest_version") = List.insertionSort rankRel cands := by
  rfl

theorem jsonStrEq_iff (x : Json) (t : String) : jsonStrEq x t = true ↔ x = Json.str t := by
  cases x <;> simp [jsonStrEq]

theorem eligibleB_iff_spec (api : String) (caps : List String) (e : PEntry)
    (hwf : WFManifest e.manifest) :
    eligibleB api caps e = true ↔ specEligible api caps e := by
  obtain ⟨-, ⟨as, has⟩, ⟨cs, hcs, hh⟩, -⟩ := hwf
  have hhb : cs.all pyHashable = true := List.all_eq_true.mpr hh
  unfold eligibleB specEligible
  rw [has, hcs]
  simp only [pyInJson, pyCapSubset, hhb, eq_self_iff_true, if_true, Option.getD_some,
    Bool.and_eq_true, List.any_eq_true, List.all_eq_true]
  constructor
  · rintro ⟨⟨x, hx, hxe⟩, hc⟩
    rw [jsonStrEq_iff] at hxe
    subst hxe
    refine ⟨⟨as, rfl, hx⟩, ⟨cs, rfl, ?_⟩⟩
    intro c hcmem
    obtain ⟨y, hymem, hye⟩ := hc c hcmem
    rw [jsonStrEq_iff] at hye
    subst hye
    exact hymem
  · rintro ⟨⟨as2, ha2, hmem⟩, ⟨cs2, hc2, hsub⟩⟩
    have hae : as = as2 := Json.arr.inj ha2
    have hce : cs = cs2 := Json.arr.inj hc2
    subst hae
    subst hce
    refine ⟨⟨Json.str api, hmem, (jsonStrEq_iff _ _).mpr rfl⟩, ?_⟩
    intro c hcmem
    exact ⟨Json.str c, hsub c hcmem, (jsonStrEq_iff _ _).mpr rfl⟩

/-- Claim C1: for every registry, request kind and required capability
list (over well-formed manifests), selection followed by highest-version
ranking returns exactly the registry entries that are eligible — where
code eligibility coincides with the spec's supported-kinds membership and
capability superset reading — ordered by the numeric dot-component version
key descending, and within each version key the registry's iteration
order is preserved. -/
theorem c1_selection_ranking (registry : List PEntry) (api : String) (caps : List String)
    (hwf : ∀ e ∈ registry, WFManifest e.manifest) :
    (rank_candidates (choose_candidates registry api caps) (some "highest_version")).Perm
        (registry.filter (eligibleB api caps)) ∧
    (∀ e ∈ registry, eligibleB api caps e = true ↔ specEligible api caps e) ∧
    List.Sorted rankRel
      (rank_candidates (choose_candidates registry api caps) (some "highest_version")) ∧
    ∀ key : List Nat,
      (rank_candidates (choose_candidates registry api caps)
          (some "highest_version")).filter (fun e => vkeyD e == key) =
        (registry.filter (eligibleB api caps)).filter (fun e => vkeyD e == key) := by
  haveI htot : IsTotal PEntry rankRel := ⟨by
    intro a b
    by_cases h : natListLt (vkeyD a) (vkeyD b) = true
    · right
      exact natListLt_asymm _ _ h
    · left
      exact Bool.eq_false_iff.mpr h⟩
  haveI htrans : IsTrans PEntry rankRel := ⟨by
    intro a b c hab hbc
    exact natListLt_neg_trans _ _ _ hab hbc⟩
  refine ⟨?_, ?_, ?_, ?_⟩
  · rw [rank_hv]
    exact List.perm_insertionSort rankRel _
  · intro e he
    exact eligibleB_iff_spec api caps e (hwf e he)
  · rw [rank_hv]
    exact List.sorted_insertionSort rankRel _
  · intro key
    rw [rank_hv, filter_insertionSort_key]
    rfl

/-- Witness for C1: the characterisation applied to a concrete two-entry
registry. -/
theorem c1_selection_ranking_witness :
    (rank_candidates (choose_candidates regW "nine" ["x"]) (some "highest_version")).Perm
        (regW.filter (eligibleB "nine" ["x"])) ∧
    (∀ e ∈ regW, eligibleB "nine" ["x"] e = true ↔ specEligible "nine" ["x"] e) ∧
    List.Sorted rankRel
      (rank_candidates (choose_candidates regW "nine" ["x"]) (some "highest_version")) ∧
    ∀ key : List Nat,
      (rank_candidates (choose_candidates regW "nine" ["x"])
          (some "highest_version")).filter (fun e => vkeyD e == key) =
        (regW.filter (eligibleB "nine" ["x"])).filter (fun e => vkeyD e == key) := by
  refine c1_selection_ranking regW "nine" ["x"] ?_
  intro e he
  simp only [regW, List.mem_cons, List.not_mem_nil, or_false] at he
  rcases he with rfl | rfl
  · exact ⟨⟨_, rfl⟩, ⟨_, rfl⟩, ⟨_, rfl, by
      intro x hx
      simp only [List.mem_singleton] at hx
      subst hx
      rfl⟩, rfl⟩
  · exact ⟨⟨_, rfl⟩, ⟨_, rfl⟩, ⟨_, rfl, by
      intro x hx
      simp only [List.mem_singleton] at hx
      subst hx
      rfl⟩, rfl⟩

theorem violGt (metrics : List (String × Json)) (p : String × Json) :
    (alHas metrics p.1 && (pyGtB (alGetD metrics p.1 Json.null) p.2).getD false) = true ↔
      ∃ x y : Rat, alGet metrics p.1 = some (Json.num x) ∧ p.2 = Json.num y ∧ y < x := by
  constructor
  · intro h
    rw [Bool.and_eq_true] at h
    obtain ⟨hhas, hgt⟩ := h
    unfold alHas at hhas
    obtain ⟨mv, hmv⟩ := Option.isSome_iff_exists.mp hhas
    rw [show alGetD metrics p.1 Json.null = mv from by unfold alGetD; rw [hmv]; rfl] at hgt
    cases mv <;> cases hp2 : p.2 <;> simp [pyGtB, hp2] at hgt
    case num.num x y =>
      exact ⟨x, y, hmv, rfl, hgt⟩
  · rintro ⟨x, y, hmv, hp2, hlt⟩
    unfold alHas alGetD
    rw [hmv, hp2]
    simp [pyGtB, hlt]

theorem violLt (metrics : List (String × Json)) (p : String × Json) :
    (alHas metrics p.1 && (pyLtB (alGetD metrics p.1 Json.null) p.2).getD false) = true ↔
      ∃ x y : Rat, alGet metrics p.1 = some (Json.num x) ∧ p.2 = Json.num y ∧ x < y := by
  constructor
  · intro h
    rw [Bool.and_eq_true] at h
    obtain ⟨hhas, hlt⟩ := h
    unfold alHas at hhas
    obtain ⟨mv, hmv⟩ := Option.isSome_iff_exists.mp hhas
    rw [show alGetD metrics p.1 Json.null = mv from by unfold alGetD; rw [hmv]; rfl] at hlt
    cases mv <;> cases hp2 : p.2 <;> simp [pyLtB, hp2] at hlt
    case num.num x y =>
      exact ⟨x, y, hmv, rfl, hlt⟩
  · rintro ⟨x, y, hmv, hp2, hlt⟩
    unfold alHas alGetD
    rw [hmv, hp2]
    simp [pyLtB, hlt]

/-- Claim C3: threshold evaluation returns false exactly when some metric
named in the maximum bounds is present with a value exceeding its bound or
some metric named in the minimum bounds is present with a value below its
bound; a metric absent from the result vacuously passes, an empty
threshold object always passes, and the spec's three worked examples hold.
The numeric-comparability hypothesis keeps the inputs inside the domain
where Python's comparisons do not raise. -/
theorem c3_thresholds (metrics : List (String × Json)) (tkvs mxl mnl : List (String × Json))
    (hmx : alGetD tkvs "max" (Json.obj []) = Json.obj mxl)
    (hmn : alGetD tkvs "min" (Json.obj []) = Json.obj mnl)
    (hnum : ∀ p ∈ mxl ++ mnl, ∀ mv, alGet metrics p.1 = some mv →
      (∃ x : Rat, mv = Json.num x) ∧ ∃ y : Rat, p.2 = Json.num y) :
    (passes_thresholds metrics (Json.obj tkvs) = false ↔
      ((∃ p ∈ mxl, ∃ x y : Rat,
          alGet metrics p.1 = some (Json.num x) ∧ p.2 = Json.num y ∧ y < x) ∨
       (∃ p ∈ mnl, ∃ x y : Rat,
          alGet metrics p.1 = some (Json.num x) ∧ p.2 = Json.num y ∧ x < y))) ∧
    (∀ ms : List (String × Json), passes_thresholds ms (Json.obj []) = true) ∧
    (passes_thresholds [("x", Json.num 9)]
        (Json.obj [("min", Json.obj [("x", Json.num 10)]),
          ("max", Json.obj [("y", Json.num 5)])]) = false ∧
     passes_thresholds [("y", Json.num 6)]
        (Json.obj [("min", Json.obj [("x", Json.num 10)]),
          ("max", Json.obj [("y", Json.num 5)])]) = false ∧
     passes_thresholds []
        (Json.obj [("min", Json.obj [("x", Json.num 10)]),
          ("max", Json.obj [("y", Json.num 5)])]) = true) := by
  refine ⟨?_, by intro ms; rfl, by decide, by decide, by decide⟩
  unfold passes_thresholds
  rw [show pyFalsy (Json.obj tkvs) = tkvs.isEmpty from rfl,
    show jsonObjKvs (Json.obj tkvs) = tkvs from rfl, hmx, hmn,
    show jsonObjKvs (Json.obj mxl) = mxl from rfl,
    show jsonObjKvs (Json.obj mnl) = mnl from rfl]
  cases hemp : tkvs.isEmpty
  · rw [if_neg (by simp)]
    by_cases hany : mxl.any (fun p => alHas metrics p.1 &&
        (pyGtB (alGetD metrics p.1 Json.null) p.2).getD false) = true
    · rw [if_pos hany]
      simp only [eq_self_iff_true, true_iff]
      obtain ⟨p, hp, hVp⟩ := List.any_eq_true.mp hany
      exact Or.inl ⟨p, hp, (violGt metrics p).mp hVp⟩
    · rw [if_neg hany]
      constructor
      · intro hall
        obtain ⟨p, hp, hVp⟩ := List.all_eq_false.mp hall
        have hVp2 : (alHas metrics p.1 &&
            (pyLtB (alGetD metrics p.1 Json.null) p.2).getD false) = true := by
          revert hVp
          cases h : (alHas metrics p.1 &&
              (pyLtB (alGetD metrics p.1 Json.null) p.2).getD false) <;> simp
        exact Or.inr ⟨p, hp, (violLt metrics p).mp hVp2⟩
      · intro h
        rcases h with ⟨p, hp, hspec⟩ | ⟨p, hp, hspec⟩
        · exact absurd (List.any_eq_true.mpr ⟨p, hp, (violGt metrics p).mpr hspec⟩) hany
        · apply List.all_eq_false.mpr
          exact ⟨p, hp, by simp [(violLt metrics p).mpr hspec]⟩
  · have htk : tkvs = [] := List.isEmpty_iff.mp hemp
    subst htk
    have hmxe : mxl = [] := by
      have := hmx
      simp [alGetD, alGet] at this
      exact this
    have hmne : mnl = [] := by
      have := hmn
      simp [alGetD, alGet] at this
      exact this
    subst hmxe
    subst hmne
    rw [if_pos (by simp)]
    constructor
    · intro h
      exact absurd h (by simp)
    · intro h
      rcases h with ⟨p, hp, -⟩ | ⟨p, hp, -⟩ <;> exact absurd hp (List.not_mem_nil p)

/-- Witness for C3: the characterisation applied to the spec's own
example thresholds and the below-minimum result. -/
theorem c3_thresholds_witness :
    (passes_thresholds [("x", Json.num 9)]
        (Json.obj [("min", Json.obj [("x", Json.num 10)]),
          ("max", Json.obj [("y", Json.num 5)])]) = false ↔
      ((∃ p ∈ [("y", Json.num 5)], ∃ x y : Rat,
          alGet [("x", Json.num 9)] p.1 = some (Json.num x) ∧ p.2 = Json.num y ∧ y < x) ∨
       (∃ p ∈ [("x", Json.num 10)], ∃ x y : Rat,
          alGet [("x", Json.num 9)] p.1 = some (Json.num x) ∧ p.2 = Json.num y ∧ x < y))) ∧
    (∀ ms : List (String × Json), passes_thresholds ms (Json.obj []) = true) ∧
    (passes_thresholds [("x", Json.num 9)]
        (Json.obj [("min", Json.obj [("x", Json.num 10)]),
          ("max", Json.obj [("y", Json.num 5)])]) = false ∧
     passes_thresholds [("y", Json.num 6)]
        (Json.obj [("min", Json.obj [("x", Json.num 10)]),
          ("max", Json.obj [("y", Json.num 5)])]) = false ∧
     passes_thresholds []
        (Json.obj [("min", Json.obj [("x", Json.num 10)]),
          ("max", Json.obj [("y", Json.num 5)])]) = true) :=
  c3_thresholds [("x", Json.num 9)]
    [("min", Json.obj [("x", Json.num 10)]), ("max", Json.obj [("y", Json.num 5)])]
    [("y", Json.num 5)] [("x", Json.num 10)] rfl rfl
    (by
      intro p hp mv hmv
      simp only [List.mem_append, List.mem_singleton] at hp
      rcases hp with rfl | rfl
      · simp [alGet] at hmv
      · simp [alGet] at hmv
        subst hmv
        exact ⟨⟨9, rfl⟩, ⟨10, rfl⟩⟩)

/-- Counterexample to claim C6 as stated: the executor does follow an
absolute entry-point path taken from the manifest (pathlib `/` lets an
absolute right operand stand alone), and when no entry point can be
located it returns a successful mock result instead of a spawn-failure
error. -/
theorem c6_counterexample :
    locateScript ["/etc/evil.py"] "/plugins/p"
        (Json.obj [("script", Json.str "/etc/evil.py")]) "p" = some "/etc/evil.py" ∧
    run_plugin [] "/out" ⟨"p", "/plugins/p", Json.obj []⟩ 15
        ⟨false, 0, "", none, "", 1⟩ = Except.ok (create_mock_output "p" "/out") := by
  constructor <;> rfl

/-- Claim C6 (amended): entry-point resolution uses pathlib join
semantics, so a relative script name (and every fallback name) is located
under the candidate's own directory while an absolute manifest path is
taken as-is; and when no entry point can be located the executor returns
the successful mock result rather than a spawn-failure error. -/
theorem c6_sandbox_entrypoint :
    (∀ (fs : List String) (outDir : String) (e : PEntry) (tl : Rat) (beh : ProcBehavior),
      locateScript fs e.path e.manifest e.name = none →
      run_plugin fs outDir e tl beh = Except.ok (create_mock_output e.name outDir)) ∧
    (∀ (fs : List String) (p : String) (man : Json) (n : String),
      isAbsPath (scriptNameOf man) = true → scriptNameOf man ∈ fs →
      locateScript fs p man n = some (scriptNameOf man)) ∧
    (∀ (fs : List String) (p : String) (man : Json) (n sp : String),
      locateScript fs p man n = some sp →
      sp = pathJoin p (scriptNameOf man) ∨ sp = pathJoin p "main.py" ∨
        sp = pathJoin p "plugin.py" ∨ sp = pathJoin p (n ++ ".py")) := by
  refine ⟨?_, ?_, ?_⟩
  · intro fs outDir e tl beh h
    unfold run_plugin
    rw [h]
  · intro fs p man n habs hmem
    unfold locateScript
    rw [show pathJoin p (scriptNameOf man) = scriptNameOf man from by
      unfold pathJoin; rw [if_pos habs]]
    rw [if_pos (List.elem_iff.mpr hmem)]
  · intro fs p man n sp h
    unfold locateScript at h
    by_cases h0 : fs.contains (pathJoin p (scriptNameOf man))
    · rw [if_pos h0] at h
      exact Or.inl (Option.some.inj h).symm
    · rw [if_neg h0] at h
      by_cases h1 : fs.contains (pathJoin p "main.py") <;>
        by_cases h2 : fs.contains (pathJoin p "plugin.py") <;>
          by_cases h3 : fs.contains (pathJoin p (n ++ ".py")) <;>
            simp only [List.filterMap_cons, List.filterMap_nil, h1, h2, h3, if_pos,
              if_neg, if_true, if_false, List.head?] at h <;>
              first
                | exact Or.inr (Or.inl (Option.some.inj h).symm)
                | exact Or.inr (Or.inr (Or.inl (Option.some.inj h).symm))
                | exact Or.inr (Or.inr (Or.inr (Option.some.inj h).symm))
                | exact absurd h (by simp)

/-- Witness for C6: the amended behaviour at concrete inputs — a missing
entry point yields the mock success, and an absolute existing script is
located as-is. -/
theorem c6_sandbox_entrypoint_witness :
    run_plugin [] "/out" ⟨"q", "/plugins/q", Json.obj []⟩ 15 ⟨false, 0, "", none, "", 1⟩ =
      Except.ok (create_mock_output "q" "/out") ∧
    locateScript ["/tmp/x.py"] "/plugins/q"
        (Json.obj [("script", Json.str "/tmp/x.py")]) "q" =
      some (scriptNameOf (Json.obj [("script", Json.str "/tmp/x.py")])) :=
  ⟨c6_sandbox_entrypoint.1 [] "/out" ⟨"q", "/plugins/q", Json.obj []⟩ 15
      ⟨false, 0, "", none, "", 1⟩ rfl,
   c6_sandbox_entrypoint.2.1 ["/tmp/x.py"] "/plugins/q"
      (Json.obj [("script", Json.str "/tmp/x.py")]) "q" rfl (by simp [scriptNameOf, alGet])⟩

/-- Claim C8: for a located entry point whose wait completes (no
timeout), a non-zero child exit status yields an execution failure
regardless of what the child wrote; on exit zero an unparseable standard
output is wrapped as a best-effort successful result instead of failing;
and every successful reply carries the wall-clock execution-duration
metric merged into its metrics. -/
theorem c8_run_plugin_reply (fs : List String) (outDir : String) (e : PEntry) (tl : Rat)
    (beh : ProcBehavior) (hloc : (locateScript fs e.path e.manifest e.name).isSome = true)
    (hnt : beh.timedOut = false) :
    (beh.exitCode ≠ 0 →
      run_plugin fs outDir e tl beh =
        Except.error (errExecFailed e.name (errNonzero e.name beh.exitCode beh.stderrTxt))) ∧
    (beh.exitCode = 0 → beh.stdoutParsed = none →
      run_plugin fs outDir e tl beh = Except.ok (Json.obj
        [("status", Json.str "completed"), ("output", Json.str (strStrip beh.stdoutRaw)),
         ("artifacts", Json.obj []),
         ("metrics", Json.obj [("execution_time_s", Json.num beh.duration)])])) ∧
    (∀ j, run_plugin fs outDir e tl beh = Except.ok j →
      ∃ kvs mkvs, j = Json.obj kvs ∧ alGet kvs "metrics" = some (Json.obj mkvs) ∧
        alGet mkvs "execution_time_s" = some (Json.num beh.duration)) := by
  obtain ⟨sp, hsp⟩ := Option.isSome_iff_exists.mp hloc
  refine ⟨?_, ?_, ?_⟩
  · intro hz
    unfold run_plugin
    rw [hsp, hnt]
    rw [if_neg (by simp), if_pos (by simpa using hz)]
  · intro hz hp
    unfold run_plugin
    rw [hsp, hnt, hp]
    rw [if_neg (by simp), if_neg (by simp [hz])]
    rfl
  · intro j hj
    unfold run_plugin at hj
    rw [hsp, hnt, if_neg (by simp)] at hj
    by_cases hz : beh.exitCode != 0
    · rw [if_pos hz] at hj
      cases hj
    · rw [if_neg hz] at hj
      cases hparse : beh.stdoutParsed with
      | none =>
        rw [hparse] at hj
        exact ⟨_, _, (Except.ok.inj hj).symm, alGet_alSet_self _ "metrics" _,
          alGet_alSet_self [] "execution_time_s" _⟩
      | some pj =>
        rw [hparse] at hj
        cases pj with
        | obj kvs =>
          dsimp only at hj
          cases hm : alGet kvs "metrics" with
          | none =>
            rw [hm] at hj
            exact ⟨_, _, (Except.ok.inj hj).symm, alGet_alSet_self kvs "metrics" _, rfl⟩
          | some mv =>
            cases mv with
            | obj m =>
              rw [hm] at hj
              exact ⟨_, _, (Except.ok.inj hj).symm, alGet_alSet_self kvs "metrics" _,
                alGet_alSet_self m "execution_time_s" _⟩
            | null => rw [hm] at hj; cases hj
            | bool b => rw [hm] at hj; cases hj
            | num q => rw [hm] at hj; cases hj
            | str s => rw [hm] at hj; cases hj
            | arr xs => rw [hm] at hj; cases hj
        | null => cases hj
        | bool b => cases hj
        | num q => cases hj
        | str s => cases hj
        | arr xs => cases hj

/-- Witness for C8: the non-zero-exit clause at a concrete located
script and behaviour. -/
theorem c8_run_plugin_reply_witness :
    run_plugin ["/plugins/p/run.py"] "/out" ⟨"p", "/plugins/p", Json.obj []⟩ 15
        ⟨false, 1, "junk", none, "boom", 2⟩ =
      Except.error (errExecFailed "p" (errNonzero "p" 1 "boom")) :=
  (c8_run_plugin_reply ["/plugins/p/run.py"] "/out" ⟨"p", "/plugins/p", Json.obj []⟩ 15
      ⟨false, 1, "junk", none, "boom", 2⟩ rfl rfl).1 (by decide)

theorem chainStep_errs_sub (env : Env) (reg : List PEntry) (candName : String)
    (st : List (String × Json) × List Json) (depName : String) (x : Json)
    (hx : x ∈ st.2) : x ∈ (chainStep env reg candName st depName).2 := by
  unfold chainStep
  cases regGet reg depName with
  | none => exact List.mem_append_left _ hx
  | some dep =>
    dsimp only
    cases env.runDep dep with
    | ok ar => exact hx
    | error msg => exact List.mem_append_left _ hx

theorem chainFold_errs_sub (env : Env) (reg : List PEntry) (candName : String)
    (steps : List String) :
    ∀ (st : List (String × Json) × List Json) (x : Json), x ∈ st.2 →
      x ∈ (steps.foldl (chainStep env reg candName) st).2 := by
  induction steps with
  | nil => intro st x hx; exact hx
  | cons s ss ih =>
    intro st x hx
    rw [List.foldl_cons]
    exact ih _ x (chainStep_errs_sub env reg candName st s x hx)

theorem evolveLoop_errlog_mono (env : Env) (pol : Policy) (reg : List PEntry)
    (tried : List String) (cands : List PEntry) :
    ∀ (errs : List Json) (x : Json), x ∈ errs →
      x ∈ (evolveLoop env pol reg tried cands errs).errlog := by
  induction cands with
  | nil => intro errs x hx; exact hx
  | cons c rest ih =>
    intro errs x hx
    unfold evolveLoop
    by_cases hsig : (pol.requireSignatures && !verify_manifest (jsonObjKvs c.manifest)) = true
    · rw [if_pos hsig]
      exact ih _ x (List.mem_append_left _ hx)
    · rw [if_neg hsig]
      cases hrun : env.runPrimary c with
      | error msg => exact ih _ x (List.mem_append_left _ hx)
      | ok res =>
        dsimp only
        by_cases hth : passes_thresholds
            ((pol.postChain.foldl (chainStep env reg c.name)
              (alSet (jsonObjKvs (pyOr (alGetD (jsonObjKvs res) "metrics" (Json.obj []))
                (Json.obj []))) "latency_ms" (Json.num (env.latencyMs c)), errs)).1)
            pol.thresholds = true
        · rw [if_neg (by simp [hth])]
          exact chainFold_errs_sub env reg c.name pol.postChain _ x hx
        · rw [if_pos (by simp [Bool.eq_false_iff.mpr hth])]
          exact ih _ x (List.mem_append_left _
            (chainFold_errs_sub env reg c.name pol.postChain _ x hx))

/-- Claim C2: when signature enforcement is on and a candidate's manifest
fails verification, the trial loop records the bad-signature error for
that candidate and continues with the remaining ranked candidates instead
of failing the request — in particular, if some later candidate succeeds,
the whole run still exits successfully. -/
theorem c2_bad_signature_advance (env : Env) (pol : Policy) (registry : List PEntry)
    (tried : List String) (c : PEntry) (rest : List PEntry) (errs : List Json)
    (hreq : pol.requireSignatures = true)
    (hver : verify_manifest (jsonObjKvs c.manifest) = false)
    (hrest : rest ≠ []) :
    evolveLoop env pol registry tried (c :: rest) errs =
      evolveLoop env pol registry tried rest (errs ++ [badSigErr c.name]) ∧
    badSigErr c.name ∈ (evolveLoop env pol registry tried (c :: rest) errs).errlog ∧
    ((evolveLoop env pol registry tried rest (errs ++ [badSigErr c.name])).exitCode = 0 →
      (evolveLoop env pol registry tried (c :: rest) errs).exitCode = 0) := by
  have hstep : evolveLoop env pol registry tried (c :: rest) errs =
      evolveLoop env pol registry tried rest (errs ++ [badSigErr c.name]) := by
    conv_lhs => rw [evolveLoop]
    rw [if_pos (by rw [hreq, hver]; rfl)]
  refine ⟨hstep, ?_, ?_⟩
  · rw [hstep]
    exact evolveLoop_errlog_mono env pol registry tried rest _ _
      (List.mem_append_right _ (List.mem_singleton_self _))
  · intro h
    rw [hstep]
    exact h

/-- Witness for C2: a signed-manifest-less candidate under a strict
policy advances to the remaining candidate. -/
theorem c2_bad_signature_advance_witness :
    evolveLoop envStub polStub [] ["alpha", "beta"] (candC10 :: [⟨"beta", "/plugins/beta", Json.obj []⟩]) [] =
      evolveLoop envStub polStub [] ["alpha", "beta"] [⟨"beta", "/plugins/beta", Json.obj []⟩]
        ([] ++ [badSigErr candC10.name]) ∧
    badSigErr candC10.name ∈
      (evolveLoop envStub polStub [] ["alpha", "beta"]
        (candC10 :: [⟨"beta", "/plugins/beta", Json.obj []⟩]) []).errlog ∧
    ((evolveLoop envStub polStub [] ["alpha", "beta"] [⟨"beta", "/plugins/beta", Json.obj []⟩]
        ([] ++ [badSigErr candC10.name])).exitCode = 0 →
      (evolveLoop envStub polStub [] ["alpha", "beta"]
        (candC10 :: [⟨"beta", "/plugins/beta", Json.obj []⟩]) []).exitCode = 0) :=
  c2_bad_signature_advance envStub polStub [] ["alpha", "beta"] candC10
    [⟨"beta", "/plugins/beta", Json.obj []⟩] [] rfl rfl (List.cons_ne_nil _ _)

theorem rank_nil (prefer : Option String) : rank_candidates [] prefer = [] := by
  unfold rank_candidates
  split <;> rfl

theorem objs_append_single (errs : List Json) (hobj : ∀ x ∈ errs, ∃ kvs, x = Json.obj kvs)
    (e : Json) (kvs0 : List (String × Json)) (he : e = Json.obj kvs0) :
    ∀ x ∈ errs ++ [e], ∃ kvs, x = Json.obj kvs := by
  intro x hx
  rcases List.mem_append.mp hx with h | h
  · exact hobj x h
  · rw [List.mem_singleton] at h
    exact ⟨kvs0, h.trans he⟩

theorem chainStep_errs_objs (env : Env) (reg : List PEntry) (candName : String)
    (st : List (String × Json) × List Json) (depName : String)
    (hobj : ∀ x ∈ st.2, ∃ kvs, x = Json.obj kvs) :
    ∀ x ∈ (chainStep env reg candName st depName).2, ∃ kvs, x = Json.obj kvs := by
  unfold chainStep
  cases regGet reg depName with
  | none => exact objs_append_single st.2 hobj _ _ rfl
  | some dep =>
    dsimp only
    cases env.runDep dep with
    | ok ar => exact hobj
    | error msg => exact objs_append_single st.2 hobj _ _ rfl

theorem chainFold_errs_objs (env : Env) (reg : List PEntry) (candName : String)
    (steps : List String) :
    ∀ (st : List (String × Json) × List Json),
      (∀ x ∈ st.2, ∃ kvs, x = Json.obj kvs) →
      ∀ x ∈ (steps.foldl (chainStep env reg candName) st).2, ∃ kvs, x = Json.obj kvs := by
  induction steps with
  | nil => intro st hobj; exact hobj
  | cons s ss ih =>
    intro st hobj
    rw [List.foldl_cons]
    exact ih _ (chainStep_errs_objs env reg candName st s hobj)

theorem evolveLoop_failure_shape (env : Env) (pol : Policy) (reg : List PEntry)
    (tried : List String) (cands : List PEntry) :
    ∀ errs : List Json, (∀ x ∈ errs, ∃ kvs, x = Json.obj kvs) →
      (evolveLoop env pol reg tried cands errs).exitCode = 1 →
      ∃ errs2, (evolveLoop env pol reg tried cands errs).printed = failedDoc errs2 ∧
        (∀ x ∈ errs2, ∃ kvs, x = Json.obj kvs) ∧
        (errs ≠ [] → errs2 ≠ []) ∧ (cands ≠ [] → errs2 ≠ []) := by
  induction cands with
  | nil =>
    intro errs hobj _
    exact ⟨errs, rfl, hobj, fun h => h, fun h => absurd rfl h⟩
  | cons c rest ih =>
    intro errs hobj hexit
    by_cases hsig : (pol.requireSignatures && !verify_manifest (jsonObjKvs c.manifest)) = true
    · have heq : evolveLoop env pol reg tried (c :: rest) errs =
          evolveLoop env pol reg tried rest (errs ++ [badSigErr c.name]) := by
        conv_lhs => rw [evolveLoop]
        rw [if_pos hsig]
      rw [heq] at hexit ⊢
      obtain ⟨errs2, hp, ho, h1, -⟩ :=
        ih _ (objs_append_single errs hobj _ _ rfl) hexit
      exact ⟨errs2, hp, ho, fun _ => h1 (by simp), fun _ => h1 (by simp)⟩
    · cases hrun : env.runPrimary c with
      | error msg =>
        have heq : evolveLoop env pol reg tried (c :: rest) errs =
            evolveLoop env pol reg tried rest (errs ++ [excErr c.name msg]) := by
          conv_lhs => rw [evolveLoop]
          rw [if_neg hsig, hrun]
        rw [heq] at hexit ⊢
        obtain ⟨errs2, hp, ho, h1, -⟩ :=
          ih _ (objs_append_single errs hobj _ _ rfl) hexit
        exact ⟨errs2, hp, ho, fun _ => h1 (by simp), fun _ => h1 (by simp)⟩
      | ok res =>
        by_cases hth : passes_thresholds
            ((pol.postChain.foldl (chainStep env reg c.name)
              (alSet (jsonObjKvs (pyOr (alGetD (jsonObjKvs res) "metrics" (Json.obj []))
                (Json.obj []))) "latency_ms" (Json.num (env.latencyMs c)), errs)).1)
            pol.thresholds = true
        · have heq : (evolveLoop env pol reg tried (c :: rest) errs).exitCode = 0 := by
            conv_lhs => rw [evolveLoop]
            rw [if_neg hsig, hrun]
            dsimp only
            rw [if_neg (by simp [hth])]
          rw [heq] at hexit
          exact absurd hexit (by simp)
        · have heq : evolveLoop env pol reg tried (c :: rest) errs =
              evolveLoop env pol reg tried rest
                ((pol.postChain.foldl (chainStep env reg c.name)
                  (alSet (jsonObjKvs (pyOr (alGetD (jsonObjKvs res) "metrics" (Json.obj []))
                    (Json.obj []))) "latency_ms" (Json.num (env.latencyMs c)), errs)).2 ++
                  [badMetricsErr c.name
                    ((pol.postChain.foldl (chainStep env reg c.name)
                      (alSet (jsonObjKvs (pyOr (alGetD (jsonObjKvs res) "metrics"
                        (Json.obj [])) (Json.obj []))) "latency_ms"
                        (Json.num (env.latencyMs c)), errs)).1)]) := by
            conv_lhs => rw [evolveLoop]
            rw [if_neg hsig, hrun]
            dsimp only
            rw [if_pos (by simp [Bool.eq_false_iff.mpr hth])]
          rw [heq] at hexit ⊢
          have hstobj : ∀ x ∈ (pol.postChain.foldl (chainStep env reg c.name)
              (alSet (jsonObjKvs (pyOr (alGetD (jsonObjKvs res) "metrics" (Json.obj []))
                (Json.obj []))) "latency_ms" (Json.num (env.latencyMs c)), errs)).2,
              ∃ kvs, x = Json.obj kvs :=
            chainFold_errs_objs env reg c.name pol.postChain _ hobj
          obtain ⟨errs2, hp, ho, h1, -⟩ :=
            ih _ (objs_append_single _ hstobj _ _ rfl) hexit
          exact ⟨errs2, hp, ho, fun _ => h1 (by simp), fun _ => h1 (by simp)⟩

/-- Claim C7: when selection yields no eligible candidate, the
orchestrator returns the distinct fatal no-candidates outcome, does so for
every execution environment alike (so no plugin process is consulted),
and that printed outcome differs from every outcome in which candidates
existed but all were tried and failed. -/
theorem c7_no_candidates (env env2 : Env) (pol : Policy) (registry : List PEntry)
    (api : String) (caps : List String)
    (hnone : choose_candidates registry api caps = []) :
    evolve env pol registry api caps =
      ⟨1, failedDoc [Json.str (noMatchMsg api caps)], []⟩ ∧
    evolve env pol registry api caps = evolve env2 pol registry api caps ∧
    (∀ (tried : List String) (cands : List PEntry), cands ≠ [] →
      (evolveLoop env pol registry tried cands []).exitCode = 1 →
      (evolveLoop env pol registry tried cands []).printed ≠
        failedDoc [Json.str (noMatchMsg api caps)]) := by
  have hmain : ∀ e : Env, evolve e pol registry api caps =
      ⟨1, failedDoc [Json.str (noMatchMsg api caps)], []⟩ := by
    intro e
    unfold evolve
    rw [hnone, rank_nil]
    rfl
  refine ⟨hmain env, (hmain env).trans (hmain env2).symm, ?_⟩
  intro tried cands hc hexit
  obtain ⟨errs2, hp, ho, -, -⟩ :=
    evolveLoop_failure_shape env pol registry tried cands []
      (by intro x hx; cases hx) hexit
  rw [hp]
  intro heq
  have h1 := Json.obj.inj heq
  simp only [failedDoc, List.cons.injEq, Prod.mk.injEq, Json.arr.injEq, and_true,
    true_and] at h1
  obtain ⟨kvs, hk⟩ := ho (Json.str (noMatchMsg api caps))
    (by rw [h1]; exact List.mem_singleton_self _)
  exact Json.noConfusion hk

/-- Witness for C7: the no-candidates outcome on an empty registry for
the unknown request kind. -/
theorem c7_no_candidates_witness :
    evolve envStub polStub [] "unknown-kind" [] =
      ⟨1, failedDoc [Json.str (noMatchMsg "unknown-kind" [])], []⟩ :=
  (c7_no_candidates envStub envStub polStub [] "unknown-kind" [] rfl).1

/-- Claim C10: a post-chain step naming a plugin absent from the registry
is skipped with a recorded warning naming it — the step leaves the running
metrics untouched — and with every configured step absent, the primary
candidate's trial still succeeds with exactly the primary plugin's own
metrics (plus the orchestrator's latency entry) and the warnings
recorded. -/
theorem c10_missing_chain_skip :
    (∀ (env : Env) (reg : List PEntry) (candName : String)
        (st : List (String × Json) × List Json) (depName : String),
      regGet reg depName = none →
      chainStep env reg candName st depName =
        (st.1, st.2 ++ [missingPostW candName depName])) ∧
    (∀ (env : Env) (reg : List PEntry) (candName : String) (steps : List String)
        (m : List (String × Json)) (errs : List Json),
      (∀ d ∈ steps, regGet reg d = none) →
      steps.foldl (chainStep env reg candName) (m, errs) =
        (m, errs ++ steps.map (missingPostW candName))) ∧
    (∀ (env : Env) (pol : Policy) (reg : List PEntry) (tried : List String)
        (c : PEntry) (rest : List PEntry) (errs : List Json) (res : Json),
      (pol.requireSignatures && !verify_manifest (jsonObjKvs c.manifest)) = false →
      env.runPrimary c = Except.ok res →
      (∀ d ∈ pol.postChain, regGet reg d = none) →
      passes_thresholds (alSet (jsonObjKvs (pyOr (alGetD (jsonObjKvs res) "metrics"
          (Json.obj [])) (Json.obj []))) "latency_ms" (Json.num (env.latencyMs c)))
        pol.thresholds = true →
      evolveLoop env pol reg tried (c :: rest) errs =
        ⟨0, Json.obj [("status", Json.str "ok"), ("chosen", Json.str c.name),
            ("version", alGetD (jsonObjKvs c.manifest) "version" (Json.str "")),
            ("artifacts", alGetD (jsonObjKvs res) "artifacts" (Json.obj [])),
            ("metrics", Json.obj (alSet (jsonObjKvs (pyOr (alGetD (jsonObjKvs res)
              "metrics" (Json.obj [])) (Json.obj []))) "latency_ms"
              (Json.num (env.latencyMs c)))),
            ("tried", Json.arr (tried.map Json.str))],
          errs ++ pol.postChain.map (missingPostW c.name)⟩) := by
  have hstep : ∀ (env : Env) (reg : List PEntry) (candName : String)
      (st : List (String × Json) × List Json) (depName : String),
      regGet reg depName = none →
      chainStep env reg candName st depName =
        (st.1, st.2 ++ [missingPostW candName depName]) := by
    intro env reg candName st depName h
    unfold chainStep
    rw [h]
  have hfold : ∀ (env : Env) (reg : List PEntry) (candName : String)
      (steps : List String) (m : List (String × Json)) (errs : List Json),
      (∀ d ∈ steps, regGet reg d = none) →
      steps.foldl (chainStep env reg candName) (m, errs) =
        (m, errs ++ steps.map (missingPostW candName)) := by
    intro env reg candName steps
    induction steps with
    | nil => intro m errs _; simp
    | cons d ss ih =>
      intro m errs hmiss
      rw [List.foldl_cons, hstep env reg candName (m, errs) d
        (hmiss d (List.mem_cons_self d ss))]
      rw [ih m (errs ++ [missingPostW candName d])
        (fun d2 hd2 => hmiss d2 (List.mem_cons_of_mem d hd2))]
      simp [List.append_assoc]
  refine ⟨hstep, hfold, ?_⟩
  intro env pol reg tried c rest errs res hsig hrun hmiss hth
  conv_lhs => rw [evolveLoop]
  rw [if_neg (by simp [hsig]), hrun]
  dsimp only
  rw [hfold env reg c.name pol.postChain _ errs hmiss]
  rw [if_neg (by simp [hth])]

/-- Witness for C10: the missing-chain scenario at a concrete
environment, policy and candidate. -/
theorem c10_missing_chain_skip_witness :
    evolveLoop envC10 polC10 [] ["alpha"] [candC10] [] =
      ⟨0, Json.obj [("status", Json.str "ok"), ("chosen", Json.str candC10.name),
          ("version", alGetD (jsonObjKvs candC10.manifest) "version" (Json.str "")),
          ("artifacts", alGetD (jsonObjKvs (Json.obj [("metrics",
            Json.obj [("order_k2", Json.num 1)]), ("artifacts", Json.obj [])]))
            "artifacts" (Json.obj [])),
          ("metrics", Json.obj (alSet (jsonObjKvs (pyOr (alGetD (jsonObjKvs
            (Json.obj [("metrics", Json.obj [("order_k2", Json.num 1)]),
              ("artifacts", Json.obj [])])) "metrics" (Json.obj [])) (Json.obj [])))
            "latency_ms" (Json.num (envC10.latencyMs candC10)))),
          ("tried", Json.arr (["alpha"].map Json.str))],
        [] ++ polC10.postChain.map (missingPostW candC10.name)⟩ :=
  c10_missing_chain_skip.2.2 envC10 polC10 [] ["alpha"] candC10 [] []
    (Json.obj [("metrics", Json.obj [("order_k2", Json.num 1)]),
      ("artifacts", Json.obj [])])
    rfl rfl (fun d _ => rfl) rfl

end Xova
